import Mathlib

/-!
Shallow embedding of the wh40k-10e battle/combat simulator
(`combat_simulator.py` and `battle_simulator.py`) together with proofs
about its combat-resolution pipeline and its battle state machine.

Conventions used throughout the embedding:
* Python `int` values are modelled as `ℤ` (or `ℕ` where the source value
  is a count that is produced non-negative).
* A D6 draw `np.random.randint(1, 7)` is modelled by an explicit random
  stream `g : ℕ → ℕ` together with a running counter: the `i`-th draw is
  `g i % 6 + 1`, which always lies in `1..6`.  Every function that rolls
  dice takes the stream and the current counter and returns the new
  counter, mirroring the sequential consumption of the shared generator.
* Battlefield coordinates are modelled as rationals.  The source compares
  Euclidean distances against constant radii; every such comparison
  `sqrt d2 <= r` (resp. `sqrt d2 > r`) is embedded exactly as
  `0 <= r ∧ d2 <= r^2` (resp. `r < 0 ∨ r^2 < d2`), which is equivalent
  over the reals, keeping every definition executable.
* Display-only data (unit/weapon name strings, log message text) is
  omitted; it influences no computation in the source.
-/

namespace WH40K

/-- D6 roll drawn from the random stream `g` at position `i`
(embeds `roll_d6` / `np.random.randint(1, 7)`); always in `1..6`. -/
def d6 (g : ℕ → ℕ) (i : ℕ) : ℤ :=
  ((g i % 6 : ℕ) : ℤ) + 1

/-- Number of rolls `d6 g (start+j)`, `j < n`, that are `>= thr`
(embeds drawing an array of `n` D6 and counting successes). -/
def countGE (g : ℕ → ℕ) (start n : ℕ) (thr : ℤ) : ℕ :=
  ((List.range n).filter (fun j => thr ≤ d6 g (start + j))).length

/-- Number of rolls `d6 g (start+j)`, `j < n`, that are `< thr`
(embeds drawing an array of `n` D6 and counting rolls below `thr`). -/
def countLT (g : ℕ → ℕ) (start n : ℕ) (thr : ℤ) : ℕ :=
  ((List.range n).filter (fun j => d6 g (start + j) < thr)).length

/-- Embeds `combat_simulator.calculate_wound_requirement` (S vs T table). -/
def calculate_wound_requirement (strength toughness : ℤ) : ℤ :=
  if strength ≥ toughness * 2 then 2
  else if strength > toughness then 3
  else if strength = toughness then 4
  else if strength < toughness ∧ strength * 2 > toughness then 5
  else 6

/-- Embeds `BattleSimulator._calculate_wound_roll` (S vs T table,
`battle_simulator.py`). -/
def calculate_wound_roll (strength toughness : ℤ) : ℤ :=
  if strength ≥ toughness * 2 then 2
  else if strength > toughness then 3
  else if strength = toughness then 4
  else if strength * 2 > toughness then 5
  else 6

/-- Re-roll policies parsed from ability text (`''`, `'ones'`,
`'failed'`, `'all'` in the source). -/
inductive Reroll where
  | noReroll
  | ones
  | failed
  | all
  deriving DecidableEq, Repr

/-- Embeds the single-save loop body of `simulate_attack_sequence`
(`combat_simulator.py` lines 1277-1293): one D6, an optional single
re-roll according to the defender's save re-roll policy, and the final
failed-or-not verdict `roll < save_requirement`.  Returns the verdict and
the new stream counter. -/
def saveRollOne (g : ℕ → ℕ) (i : ℕ) (req : ℤ) (rr : Reroll) : Bool × ℕ :=
  let r := d6 g i
  let redo : Bool :=
    match rr with
    | .all => true
    | .ones => r = 1
    | .failed => r < req
    | .noReroll => false
  if redo then (d6 g (i + 1) < req, i + 2) else (r < req, i + 1)

/-- Rolls `n` saves sequentially, counting failures
(the `for _ in range(normal_wounds)` loop of the save phase). -/
def saveLoop (g : ℕ → ℕ) (req : ℤ) (rr : Reroll) : ℕ → ℕ → ℕ → ℕ × ℕ
  | 0, i, acc => (acc, i)
  | n + 1, i, acc =>
      let fr := saveRollOne g i req rr
      saveLoop g req rr n fr.2 (acc + if fr.1 then 1 else 0)

/-- Embeds the armor/invulnerable choice of the save phase
(`combat_simulator.py` lines 1245-1257): the modified armor threshold is
`save - modified_ap + save_modifier`, and an invulnerable save replaces
it exactly when it is numerically lower. -/
def saveRequirement (save modified_ap save_modifier : ℤ) (invuln : Option ℤ) : ℤ :=
  let modified_save := save - modified_ap + save_modifier
  match invuln with
  | none => modified_save
  | some v => if v < modified_save then v else modified_save

/-- Embeds the save phase of `simulate_attack_sequence`
(`combat_simulator.py` lines 1265-1293): a threshold above 6 fails every
save without rolling, a threshold of 1 or less passes every save without
rolling, otherwise each of the `normal_wounds` saves is rolled (with
re-rolls).  Returns `(failed_saves, new counter)`. -/
def saveStep (g : ℕ → ℕ) (i : ℕ) (normal_wounds : ℕ) (req : ℤ) (rr : Reroll) : ℕ × ℕ :=
  if req > 6 then (normal_wounds, i)
  else if req ≤ 1 then (0, i)
  else saveLoop g req rr normal_wounds i 0

/-- Embeds the Anti-X keyword scan of `simulate_attack_sequence`
(`combat_simulator.py` lines 999-1006): the first `(keyword, value)` entry
of the weapon's anti table whose keyword the defender has.  Keywords are
modelled as numeric tokens. -/
def activeAnti (anti : List (ℕ × ℤ)) (defender_keywords : List ℕ) : Option ℤ :=
  (anti.find? (fun p => defender_keywords.contains p.1)).map (fun p => p.2)

/-- Embeds the Anti-X improvement (`combat_simulator.py` lines 1102-1105):
an active anti value `> 0` caps the wound requirement from below via
`min`. -/
def antiApplied (base : ℤ) (anti : Option ℤ) : ℤ :=
  match anti with
  | some b => if b > 0 then min base b else base
  | none => base

/-- Embeds the modified wound requirement of the wound phase
(`combat_simulator.py` lines 1100-1109): the S-vs-T table value, improved
by an active Anti-X cap, then shifted by the wound modifier and clamped
into `2..6`. -/
def modifiedWoundRequirement (strength toughness wound_modifier : ℤ) (anti : Option ℤ) : ℤ :=
  max 2 (min 6 (antiApplied (calculate_wound_requirement strength toughness) anti - wound_modifier))

/-- Embeds the effective wound requirement actually rolled against
(`combat_simulator.py` lines 1120-1124): with Transhuman active the code
uses `max(4, base_wound_requirement)` — the unmodified table value —
otherwise the modified requirement. -/
def effectiveWoundRequirement (strength toughness wound_modifier : ℤ) (anti : Option ℤ)
    (transhuman : Bool) : ℤ :=
  if transhuman then max 4 (calculate_wound_requirement strength toughness)
  else modifiedWoundRequirement strength toughness wound_modifier anti

/-- Spec-side reading of claim C4 (for refinement comparison only):
the transhuman floor applied to the already-modified wound threshold,
`max(4, modified_threshold)`. -/
def specTranshumanThreshold (strength toughness wound_modifier : ℤ) (anti : Option ℤ) : ℤ :=
  max 4 (modifiedWoundRequirement strength toughness wound_modifier anti)

/-- Embeds the per-point Feel No Pain roll of `simulate_attack_sequence`
(`combat_simulator.py` lines 1338-1344): a roll `>= fnp` lets the point of
damage through, a roll `< fnp` prevents it. -/
def fnpPointKept (g : ℕ → ℕ) (i : ℕ) (fnp : ℤ) : Bool :=
  d6 g i ≥ fnp

/-- Feel No Pain over the points of one damage instance: returns
`(points kept, points prevented, new counter)`; one roll per point. -/
def fnpInstance (g : ℕ → ℕ) (fnp : ℤ) : ℕ → ℕ → ℕ × ℕ × ℕ
  | 0, i => (0, 0, i)
  | d + 1, i =>
      let rest := fnpInstance g fnp d (i + 1)
      if fnpPointKept g i fnp then (rest.1 + 1, rest.2.1, rest.2.2)
      else (rest.1, rest.2.1 + 1, rest.2.2)

/-- Embeds the Feel No Pain step of `simulate_attack_sequence`
(`combat_simulator.py` lines 1333-1346): every single point of every
damage instance is rolled for independently; kept points become
1-damage instances.  Returns `(total kept, total prevented, counter)`. -/
def fnpStep (g : ℕ → ℕ) (fnp : ℤ) : List ℕ → ℕ → ℕ × ℕ × ℕ
  | [], i => (0, 0, i)
  | d :: ds, i =>
      let this := fnpInstance g fnp d i
      let rest := fnpStep g fnp ds this.2.2
      (this.1 + rest.1, this.2.1 + rest.2.1, rest.2.2)

/-- Truncation toward zero, the behaviour of Python's `int()` on a
finite float/rational value. -/
def ratTrunc (q : ℚ) : ℤ :=
  if 0 ≤ q then ⌊q⌋ else ⌈q⌉

/-- Die faces appearing in the simulator's dice expressions. -/
inductive Die where
  | d3
  | d6
  deriving DecidableEq, Repr

/-- Structured form of a dice-expression string: either a plain integer
("3") or `multiplier × die + constant` ("2D6+1", "D3", ...), the two
shapes handled by `BattleSimulator._parse_dice_notation`. -/
inductive DiceVal where
  | fixed (n : ℤ)
  | dice (mult : ℕ) (die : Die) (c : ℤ)
  deriving DecidableEq, Repr

/-- Mean contribution used by `_parse_dice_notation`: `3.5` per D6 and
`2` per D3. -/
def dieMean : Die → ℚ
  | .d6 => 7 / 2
  | .d3 => 2

/-- Embeds `BattleSimulator._parse_dice_notation`
(`battle_simulator.py` lines 1033-1057) on a well-formed expression: a
plain integer is returned as is; for `mult` dice with constant `c` the
code accumulates `mult × mean + c` as a float, truncates with `int()`,
and clamps the result to a minimum of 1.  The accumulated total is
`mult × 3.5 + c` for D6 (computed exactly in halves, truncation toward
zero being `Int.tdiv` by 2) and the integer `mult × 2 + c` for D3. -/
def parseDiceAvg : DiceVal → ℤ
  | .fixed n => n
  | .dice mult .d6 c => max 1 ((7 * (mult : ℤ) + 2 * c).tdiv 2)
  | .dice mult .d3 c => max 1 (2 * (mult : ℤ) + c)

/-- Spec-side reading of claim C9 (for refinement comparison only): the
deterministic dice value as `multiplier × mean(sides)`, made integral,
plus the constant — with no minimum clamp. -/
def specDiceAvg (mult : ℕ) (die : Die) (c : ℤ) : ℤ :=
  ratTrunc (mult * dieMean die) + c

/-- Unit lifecycle states (`UnitState` enum in `battle_simulator.py`). -/
inductive UnitState where
  | ACTIVE
  | FALLBACK
  | BATTLESHOCK
  | DESTROYED
  deriving DecidableEq, Repr

/-- 2D battlefield position with rational coordinates
(embeds `Position`; the source stores floats). -/
structure Position where
  x : ℚ
  y : ℚ
  deriving DecidableEq, Repr

/-- Squared Euclidean distance between two positions.
`Position.distance_to` in the source is `sqrt` of this; all uses in the
embedded code are comparisons against constants, which are embedded as
equivalent comparisons on the square. -/
def dist2 (p q : Position) : ℚ :=
  (p.x - q.x) ^ 2 + (p.y - q.y) ^ 2

/-- `sqrt d2 ≤ r`, expressed exactly on squares: `0 ≤ r ∧ d2 ≤ r^2`. -/
def distLE (d2v r : ℚ) : Bool :=
  decide (0 ≤ r) && decide (d2v ≤ r ^ 2)

/-- `sqrt d2 > r`, expressed exactly on squares: `r < 0 ∨ r^2 < d2`. -/
def distGT (d2v r : ℚ) : Bool :=
  decide (r < 0) || decide (r ^ 2 < d2v)

/-- Embeds `BattleUnitStats` (`battle_simulator.py`). -/
structure BattleUnitStats where
  movement : ℤ
  toughness : ℤ
  save : ℤ
  wounds : ℤ
  leadership : ℤ
  oc : ℤ
  invuln_save : Option ℤ
  deriving DecidableEq, Repr

/-- Embeds `BattleWeapon` (`battle_simulator.py`); the display name and
keyword tags are omitted (unused by the embedded resolution code). -/
structure BattleWeapon where
  is_ranged : Bool
  range : ℤ
  attacks : DiceVal
  bs_ws : ℤ
  strength : ℤ
  ap : ℤ
  damage : DiceVal
  deriving DecidableEq, Repr

/-- Embeds `BattleUnit` (`battle_simulator.py`); display-only fields
(id, name, faction, abilities, keywords) are omitted. -/
structure BattleUnit where
  player_id : ℕ
  stats : BattleUnitStats
  model_count : ℤ
  wounds_per_model : ℤ
  current_wounds : ℤ
  ranged_weapons : List BattleWeapon
  melee_weapons : List BattleWeapon
  position : Position
  has_moved : Bool
  has_advanced : Bool
  has_fallen_back : Bool
  has_shot : Bool
  has_fought : Bool
  in_melee : Bool
  state : UnitState
  is_character : Bool
  points_cost : ℤ
  deriving DecidableEq, Repr

/-- Embeds `BattleUnit.is_destroyed`. -/
def BattleUnit.is_destroyed (u : BattleUnit) : Bool :=
  decide (u.current_wounds ≤ 0) || (u.state == UnitState.DESTROYED)

/-- Ceiling of the exact quotient `a / b` for `b > 0`, as integer
arithmetic (`⌈a/b⌉ = -⌊-a/b⌋` and `Int.fdiv` is floor division). -/
def ceilDiv (a b : ℤ) : ℤ :=
  -((-a).fdiv b)

/-- Embeds `BattleUnit.models_remaining`:
`max(0, ceil(current_wounds / wounds_per_model))`. -/
def BattleUnit.models_remaining (u : BattleUnit) : ℤ :=
  max 0 (ceilDiv u.current_wounds u.wounds_per_model)

/-- Embeds `BattleUnit.take_damage`: clamps the wound pool at zero,
marks the unit destroyed when it empties, and returns the updated unit
together with the number of models killed
(`models_before - models_after`). -/
def BattleUnit.take_damage (u : BattleUnit) (damage : ℤ) : BattleUnit × ℤ :=
  let models_before := u.models_remaining
  let u1 : BattleUnit := { u with current_wounds := max 0 (u.current_wounds - damage) }
  let models_after := u1.models_remaining
  let u2 : BattleUnit :=
    if u1.current_wounds ≤ 0 then { u1 with state := UnitState.DESTROYED } else u1
  (u2, models_before - models_after)

/-- Embeds `BattleWeapon.is_in_range` on the squared distance. -/
def BattleWeapon.inRange (w : BattleWeapon) (d2v : ℚ) : Bool :=
  if w.is_ranged then distLE d2v (w.range : ℚ) else distLE d2v 1

/-- Embeds `BattleUnit.is_in_engagement_range`: some living enemy lies
within 1". -/
def isInEngagementRange (u : BattleUnit) (enemies : List BattleUnit) : Bool :=
  enemies.any (fun e => !e.is_destroyed && distLE (dist2 u.position e.position) 1)

/-- Embeds `BattleUnit.reset_phase_flags`. -/
def resetPhaseFlags (u : BattleUnit) : BattleUnit :=
  { u with has_moved := false, has_advanced := false, has_fallen_back := false,
           has_shot := false, has_fought := false }

/-- Embeds `Objective` (`battle_simulator.py`); the display name is
omitted. -/
structure Objective where
  position : Position
  value : ℤ
  controlled_by : Option ℕ
  deriving DecidableEq, Repr

/-- Embeds `TerrainFeature` restricted to the fields the embedded code
reads (`center`, `width`, `length`, `provides_cover`); the approximate
`radius` property is `max(width, length) / 2`. -/
structure TerrainFeature where
  center : Position
  width : ℚ
  length : ℚ
  provides_cover : Bool
  deriving DecidableEq, Repr

/-- Embeds `TerrainFeature.radius`. -/
def TerrainFeature.radius (t : TerrainFeature) : ℚ :=
  max t.width t.length / 2

/-- Embeds `Battlefield.get_terrain_at`: the first terrain feature whose
radius covers the position. -/
def getTerrainAt (terrain : List TerrainFeature) (pos : Position) : Option TerrainFeature :=
  terrain.find? (fun t => distLE (dist2 pos t.center) t.radius)

/-- Embeds `Battlefield.is_in_cover`: the terrain at the position, if
any, provides cover. -/
def isInCover (terrain : List TerrainFeature) (pos : Position) : Bool :=
  match getTerrainAt terrain pos with
  | some t => t.provides_cover
  | none => false

/-- Embeds the armor/invulnerable choice in
`BattleSimulator._resolve_shooting` / `_resolve_melee`:
`if defender.stats.invuln_save and defender.stats.invuln_save < save_value`
(Python truthiness: `None` and `0` are falsy). -/
def invulnPick (invuln : Option ℤ) (save_value : ℤ) : ℤ :=
  match invuln with
  | some v => if v ≠ 0 ∧ v < save_value then v else save_value
  | none => save_value

/-- Embeds `BattleSimulator._resolve_melee` (`battle_simulator.py` lines
897-936): average-valued attack count times living models, sequential
hit / wound / save rolls from the stream, fixed average damage per failed
save, and `take_damage` on the defender.  Returns
`(damage_dealt, models_killed, updated defender, new counter)`. -/
def resolveMelee (g : ℕ → ℕ) (i : ℕ) (attacker : BattleUnit) (w : BattleWeapon)
    (defender : BattleUnit) : ℤ × ℤ × BattleUnit × ℕ :=
  let num_attacks := (parseDiceAvg w.attacks * attacker.models_remaining).toNat
  let hits := countGE g i num_attacks w.bs_ws
  let i1 := i + num_attacks
  if hits = 0 then (0, 0, defender, i1)
  else
    let to_wound := calculate_wound_roll w.strength defender.stats.toughness
    let wounds := countGE g i1 hits to_wound
    let i2 := i1 + hits
    if wounds = 0 then (0, 0, defender, i2)
    else
      let save_value := invulnPick defender.stats.invuln_save (defender.stats.save - w.ap)
      let fi :=
        if save_value ≥ 7 then (wounds, i2)
        else (countLT g i2 wounds save_value, i2 + wounds)
      let dpw := parseDiceAvg w.damage
      let total := (fi.1 : ℤ) * dpw
      let dk := defender.take_damage total
      (total, dk.2, dk.1, fi.2)

/-- Embeds `BattleSimulator._resolve_shooting` (`battle_simulator.py`
lines 761-818): like melee but gated on weapon range, with +1 to the hit
requirement after advancing and -1 to the save threshold in cover
(applied, as in the source, after the invulnerable replacement). -/
def resolveShooting (terrain : List TerrainFeature) (g : ℕ → ℕ) (i : ℕ)
    (attacker : BattleUnit) (w : BattleWeapon) (defender : BattleUnit) :
    ℤ × ℤ × BattleUnit × ℕ :=
  let d2v := dist2 attacker.position defender.position
  if !w.inRange d2v then (0, 0, defender, i)
  else
    let num_attacks := (parseDiceAvg w.attacks * attacker.models_remaining).toNat
    let to_hit := w.bs_ws + (if attacker.has_advanced then 1 else 0)
    let hits := countGE g i num_attacks to_hit
    let i1 := i + num_attacks
    if hits = 0 then (0, 0, defender, i1)
    else
      let to_wound := calculate_wound_roll w.strength defender.stats.toughness
      let wounds := countGE g i1 hits to_wound
      let i2 := i1 + hits
      if wounds = 0 then (0, 0, defender, i2)
      else
        let sv1 := invulnPick defender.stats.invuln_save (defender.stats.save - w.ap)
        let save_value := sv1 - (if isInCover terrain defender.position then 1 else 0)
        let fi :=
          if save_value ≥ 7 then (wounds, i2)
          else (countLT g i2 wounds save_value, i2 + wounds)
        let dpw := parseDiceAvg w.damage
        let total := (fi.1 : ℤ) * dpw
        let dk := defender.take_damage total
        (total, dk.2, dk.1, fi.2)

/-- Folds `_resolve_melee` over the attacker's melee weapon list, the
target and stream counter threading through
(the `for weapon in unit.melee_weapons` loop of `_fight_phase`). -/
def meleeLoop (g : ℕ → ℕ) (attacker : BattleUnit) :
    List BattleWeapon → BattleUnit → ℕ → ℤ × ℤ × BattleUnit × ℕ
  | [], t, i => (0, 0, t, i)
  | w :: ws, t, i =>
      let r := resolveMelee g i attacker w t
      let rest := meleeLoop g attacker ws r.2.2.1 r.2.2.2
      (r.1 + rest.1, r.2.1 + rest.2.1, rest.2.2.1, rest.2.2.2)

/-- Folds `_resolve_shooting` over the attacker's ranged weapon list
(the `for weapon in unit.ranged_weapons` loop of `_shooting_phase`). -/
def shootLoop (terrain : List TerrainFeature) (g : ℕ → ℕ) (attacker : BattleUnit) :
    List BattleWeapon → BattleUnit → ℕ → ℤ × ℤ × BattleUnit × ℕ
  | [], t, i => (0, 0, t, i)
  | w :: ws, t, i =>
      let r := resolveShooting terrain g i attacker w t
      let rest := shootLoop terrain g attacker ws r.2.2.1 r.2.2.2
      (r.1 + rest.1, r.2.1 + rest.2.1, rest.2.2.1, rest.2.2.2)

/-- Embeds one iteration of the `_command_phase` loop
(`battle_simulator.py` lines 680-693): a living unit at or below half its
starting model count (`models_remaining <= model_count / 2`, exact as
`2 * models_remaining <= model_count`) rolls two summed D6 against its
leadership and becomes battle-shocked on a roll strictly above it. -/
def commandStep (g : ℕ → ℕ) (i : ℕ) (u : BattleUnit) : BattleUnit × ℕ :=
  if u.is_destroyed then (u, i)
  else if 2 * u.models_remaining ≤ u.model_count then
    let roll := d6 g i + d6 g (i + 1)
    (if roll > u.stats.leadership then { u with state := UnitState.BATTLESHOCK } else u, i + 2)
  else (u, i)

/-- Embeds `BattleSimulator._command_phase`: `commandStep` over the
active player's units in order, threading the stream counter. -/
def commandPhase (g : ℕ → ℕ) : List BattleUnit → ℕ → List BattleUnit × ℕ
  | [], i => ([], i)
  | u :: us, i =>
      let r := commandStep g i u
      let rest := commandPhase g us r.2
      (r.1 :: rest.1, rest.2)

/-- Type of the movement decision `BattleStrategy.select_movement`
(unit, enemies, friendlies, objectives ↦ target position).  It is kept
as a parameter of the state machine: its geometry (vector normalisation
toward the chosen point) is irrational and irrelevant to the claims,
which quantify over every possible decision function. -/
def SelectMovement : Type :=
  BattleUnit → List BattleUnit → List BattleUnit → List Objective → Position

/-- Embeds one iteration of the `_movement_phase` loop
(`battle_simulator.py` lines 695-725): destroyed or battle-shocked units
are skipped; otherwise the unit asks the strategy for a position, is
marked fallen-back when engaged and moving, then moves and updates its
advanced/moved flags. -/
def movementActivation (selectMov : SelectMovement) (objs : List Objective)
    (enemies : List BattleUnit) (units : List BattleUnit) (j : ℕ) : List BattleUnit :=
  match units.get? j with
  | none => units
  | some u =>
    if u.is_destroyed || u.state == UnitState.BATTLESHOCK then units
    else
      let new_pos := selectMov u enemies units objs
      let u1 :=
        if isInEngagementRange u enemies && distGT (dist2 u.position new_pos) 0 then
          { u with has_fallen_back := true, state := UnitState.FALLBACK }
        else u
      let moved2 := dist2 u1.position new_pos
      let u2 := { u1 with position := new_pos }
      let u3 := if distGT moved2 (u2.stats.movement : ℚ) then { u2 with has_advanced := true } else u2
      let u4 := if distGT moved2 (1 / 2) then { u3 with has_moved := true } else u3
      units.set j u4

/-- Embeds `BattleSimulator._movement_phase`: the activation applied to
each index of the active player's unit list in order. -/
def movementPhase (selectMov : SelectMovement) (objs : List Objective)
    (enemies : List BattleUnit) (units : List BattleUnit) : List BattleUnit :=
  (List.range units.length).foldl (movementActivation selectMov objs enemies) units

/-- Type of the target choices `BattleStrategy.select_shooting_target` /
`select_charge_target`, kept as parameters of the state machine (their
scoring mixes a real-valued distance into the priority); the choice is
returned as an index into the enemy list, `none` for "no target". -/
def SelectTarget : Type :=
  BattleUnit → List BattleUnit → Option ℕ

/-- Embeds one iteration of the `_shooting_phase` loop
(`battle_simulator.py` lines 727-759): skip destroyed units, units with
no ranged weapons and units that fell back; otherwise resolve every
ranged weapon against the selected target and mark the unit as having
shot. -/
def shootingActivation (selectShoot : SelectTarget) (terrain : List TerrainFeature)
    (g : ℕ → ℕ) (st : List BattleUnit × List BattleUnit × ℕ) (j : ℕ) :
    List BattleUnit × List BattleUnit × ℕ :=
  let units := st.1
  let enemies := st.2.1
  let i := st.2.2
  match units.get? j with
  | none => st
  | some u =>
    if u.is_destroyed || u.ranged_weapons.isEmpty then st
    else if u.has_fallen_back then st
    else
      match selectShoot u enemies with
      | none => st
      | some ti =>
        match enemies.get? ti with
        | none => st
        | some t =>
          let r := shootLoop terrain g u u.ranged_weapons t i
          (units.set j { u with has_shot := true }, enemies.set ti r.2.2.1, r.2.2.2)

/-- Embeds `BattleSimulator._shooting_phase`. -/
def shootingPhase (selectShoot : SelectTarget) (terrain : List TerrainFeature)
    (g : ℕ → ℕ) (units enemies : List BattleUnit) (i : ℕ) :
    List BattleUnit × List BattleUnit × ℕ :=
  (List.range units.length).foldl (shootingActivation selectShoot terrain g) (units, enemies, i)

/-- Embeds one iteration of the `_charge_phase` loop
(`battle_simulator.py` lines 820-851): skip destroyed or fallen-back
units and units without melee weapons; otherwise roll 2D6 against the
distance to the selected target and, on success, move to the landing
position (geometry abstracted as `chargeLanding`) with both units marked
`in_melee`. -/
def chargeActivation (selectCharge : SelectTarget)
    (chargeLanding : Position → Position → Position) (g : ℕ → ℕ)
    (st : List BattleUnit × List BattleUnit × ℕ) (j : ℕ) :
    List BattleUnit × List BattleUnit × ℕ :=
  let units := st.1
  let enemies := st.2.1
  let i := st.2.2
  match units.get? j with
  | none => st
  | some u =>
    if u.is_destroyed || u.has_fallen_back then st
    else if u.melee_weapons.isEmpty then st
    else
      match selectCharge u enemies with
      | none => st
      | some ti =>
        match enemies.get? ti with
        | none => st
        | some t =>
          let roll := d6 g i + d6 g (i + 1)
          if distLE (dist2 u.position t.position) (roll : ℚ) then
            (units.set j { u with position := chargeLanding u.position t.position,
                                  in_melee := true },
             enemies.set ti { t with in_melee := true }, i + 2)
          else (units, enemies, i + 2)

/-- Embeds `BattleSimulator._charge_phase`. -/
def chargePhase (selectCharge : SelectTarget)
    (chargeLanding : Position → Position → Position) (g : ℕ → ℕ)
    (units enemies : List BattleUnit) (i : ℕ) :
    List BattleUnit × List BattleUnit × ℕ :=
  (List.range units.length).foldl (chargeActivation selectCharge chargeLanding g)
    (units, enemies, i)

/-- Reference into the fight-phase working state: `side = false` points
into the active player's list (the `units` argument), `side = true` into
the `enemies` argument.  `pid` and `mov` are the unit's player id and
movement stat captured when the melee roster is collected, exactly the
data Python's `(unit, player_id)` tuples and sort key read. -/
structure FightEntry where
  side : Bool
  idx : ℕ
  pid : ℕ
  mov : ℤ
  deriving DecidableEq, Repr

/-- Embeds the melee roster collection of `_fight_phase`
(`battle_simulator.py` line 856): all units of `units ++ enemies` that
are `in_melee` and not destroyed, in list order. -/
def meleeEntries (units enemies : List BattleUnit) : List FightEntry :=
  (units.enum.filter (fun p => p.2.in_melee && !p.2.is_destroyed)).map
      (fun p => ⟨false, p.1, p.2.player_id, p.2.stats.movement⟩)
    ++ (enemies.enum.filter (fun p => p.2.in_melee && !p.2.is_destroyed)).map
      (fun p => ⟨true, p.1, p.2.player_id, p.2.stats.movement⟩)

/-- Stable insertion of a fight entry into a movement-descending list:
the entry goes after every earlier entry with movement `>=` its own. -/
def insertByMovDesc (e : FightEntry) : List FightEntry → List FightEntry
  | [] => [e]
  | f :: fs => if e.mov > f.mov then e :: f :: fs else f :: insertByMovDesc e fs

/-- Embeds `melee_units.sort(key=lambda x: -x[0].stats.movement)`
(a stable descending sort by movement) as a stable insertion sort. -/
def sortByMovDesc (l : List FightEntry) : List FightEntry :=
  l.foldl (fun acc e => insertByMovDesc e acc) []

/-- Reads the unit a fight entry points at from the current working
state. -/
def lookupRef (us es : List BattleUnit) (e : FightEntry) : Option BattleUnit :=
  if e.side then es.get? e.idx else us.get? e.idx

/-- In-place update of the unit a fight entry points at. -/
def modifyRef (us es : List BattleUnit) (e : FightEntry) (f : BattleUnit → BattleUnit) :
    List BattleUnit × List BattleUnit :=
  if e.side then
    match es.get? e.idx with
    | some x => (us, es.set e.idx (f x))
    | none => (us, es)
  else
    match us.get? e.idx with
    | some x => (us.set e.idx (f x), es)
    | none => (us, es)

/-- The fight-phase target scan (`battle_simulator.py` lines 865-873):
the index of the FIRST living enemy within 1" in enemy-list order. -/
def fightTargetIdx (u : BattleUnit) (elist : List BattleUnit) : Option ℕ :=
  elist.findIdx? (fun en => !en.is_destroyed && distLE (dist2 u.position en.position) 1)

/-- Embeds one activation of the `_fight_phase` loop
(`battle_simulator.py` lines 861-895): re-check destroyed/has-fought on
the current state, pick the enemy list by comparing the entry's player id
with the active player, hit the first living enemy within 1" with every
melee weapon, and mark the actor as having fought. -/
def fightActivation (active : ℕ) (g : ℕ → ℕ)
    (st : List BattleUnit × List BattleUnit × ℕ) (e : FightEntry) :
    List BattleUnit × List BattleUnit × ℕ :=
  let us := st.1
  let es := st.2.1
  let i := st.2.2
  match lookupRef us es e with
  | none => st
  | some u =>
    if u.is_destroyed || u.has_fought then st
    else
      let enemyOnSnd : Bool := e.pid == active
      let elist := if enemyOnSnd then es else us
      match fightTargetIdx u elist with
      | none => st
      | some ti =>
        match elist.get? ti with
        | none => st
        | some t =>
          let r := meleeLoop g u u.melee_weapons t i
          let ls1 : List BattleUnit × List BattleUnit :=
            if enemyOnSnd then (us, es.set ti r.2.2.1) else (us.set ti r.2.2.1, es)
          let ls2 := modifyRef ls1.1 ls1.2 e (fun x => { x with has_fought := true })
          (ls2.1, ls2.2, r.2.2.2)

/-- Embeds `BattleSimulator._fight_phase`: the melee roster, sorted
descending by movement, activated in order over the working state. -/
def fightPhase (active : ℕ) (g : ℕ → ℕ) (units enemies : List BattleUnit) (i : ℕ) :
    List BattleUnit × List BattleUnit × ℕ :=
  (sortByMovDesc (meleeEntries units enemies)).foldl (fightActivation active g)
    (units, enemies, i)

/-- Embeds the per-side control sum of `_score_objectives`
(`battle_simulator.py` lines 944-955): `oc × models_remaining` summed
over living units within 3" of the marker. -/
def controlSum (units : List BattleUnit) (obj : Objective) : ℤ :=
  (units.filter (fun u => !u.is_destroyed && distLE (dist2 u.position obj.position) 3)).foldl
    (fun a u => a + u.stats.oc * u.models_remaining) 0

/-- Embeds the per-objective award of `_score_objectives`
(`battle_simulator.py` lines 957-965): the strictly greater control sum
gains the objective's value and takes control; a tie changes nothing. -/
def scoreStep (p1 p2 : List BattleUnit) (vp : ℤ × ℤ) (obj : Objective) :
    (ℤ × ℤ) × Objective :=
  let c1 := controlSum p1 obj
  let c2 := controlSum p2 obj
  if c1 > c2 then ((vp.1 + obj.value, vp.2), { obj with controlled_by := some 0 })
  else if c2 > c1 then ((vp.1, vp.2 + obj.value), { obj with controlled_by := some 1 })
  else (vp, obj)

/-- Embeds the `_score_objectives` loop over the objective list,
returning the updated victory points and objective list. -/
def scoreObjectivesList (p1 p2 : List BattleUnit) (vp : ℤ × ℤ) :
    List Objective → (ℤ × ℤ) × List Objective
  | [] => (vp, [])
  | obj :: objs =>
      let r := scoreStep p1 p2 vp obj
      let rest := scoreObjectivesList p1 p2 r.1 objs
      (rest.1, r.2 :: rest.2)

/-- Embeds `BattleSimulator._check_battle_end`: true when at least one
side has no living unit. -/
def checkBattleEnd (p1 p2 : List BattleUnit) : Bool :=
  !(p1.any (fun u => !u.is_destroyed)) || !(p2.any (fun u => !u.is_destroyed))

/-- The mutable battle state threaded by the turn loop: both unit lists,
the objective list, the turn counter and victory points of
`BattleState`, and the random-stream counter. -/
structure SimState where
  p1 : List BattleUnit
  p2 : List BattleUnit
  objectives : List Objective
  turn : ℕ
  vp1 : ℤ
  vp2 : ℤ
  rng : ℕ
  deriving Repr

/-- The strategy/geometry decision functions of `BattleStrategy` that the
state machine consumes; they are parameters of the embedding (claims
hold for every instantiation). -/
structure Strategy where
  selectMov : SelectMovement
  selectShoot : SelectTarget
  selectCharge : SelectTarget
  chargeLanding : Position → Position → Position

/-- Embeds `BattleSimulator._simulate_player_turn` (`battle_simulator.py`
lines 650-678): reset the active side's phase flags, then run the
command, movement, shooting, charge and fight phases in order. -/
def playerTurn (strat : Strategy) (terrain : List TerrainFeature) (g : ℕ → ℕ)
    (pid : ℕ) (st : SimState) : SimState :=
  let au := if pid = 0 then st.p1 else st.p2
  let eu := if pid = 0 then st.p2 else st.p1
  let au := au.map resetPhaseFlags
  let c := commandPhase g au st.rng
  let au := movementPhase strat.selectMov st.objectives eu c.1
  let s := shootingPhase strat.selectShoot terrain g au eu c.2
  let ch := chargePhase strat.selectCharge strat.chargeLanding g s.1 s.2.1 s.2.2
  let f := fightPhase pid g ch.1 ch.2.1 ch.2.2
  if pid = 0 then
    { st with p1 := f.1, p2 := f.2.1, rng := f.2.2 }
  else
    { st with p2 := f.1, p1 := f.2.1, rng := f.2.2 }

/-- One iteration of the `simulate_battle` turn loop
(`battle_simulator.py` lines 632-642): set the turn number, run both
players' turns, then score objectives. -/
def battleTurn (strat : Strategy) (terrain : List TerrainFeature) (g : ℕ → ℕ)
    (t : ℕ) (st : SimState) : SimState :=
  let st := { st with turn := t }
  let st := playerTurn strat terrain g 0 st
  let st := playerTurn strat terrain g 1 st
  let sc := scoreObjectivesList st.p1 st.p2 (st.vp1, st.vp2) st.objectives
  { st with vp1 := sc.1.1, vp2 := sc.1.2, objectives := sc.2 }

/-- The bounded turn loop of `simulate_battle`: at most `fuel` more
turns, the next one numbered `t`, breaking early when
`_check_battle_end` fires. -/
def runBattle (strat : Strategy) (terrain : List TerrainFeature) (g : ℕ → ℕ) :
    ℕ → ℕ → SimState → SimState
  | 0, _, st => st
  | fuel + 1, t, st =>
      let st1 := battleTurn strat terrain g t st
      if checkBattleEnd st1.p1 st1.p2 then st1
      else runBattle strat terrain g fuel (t + 1) st1

/-- Winner tag of the battle report (`_determine_winner` returns army
name strings; names are display-only). -/
inductive Winner where
  | player1
  | player2
  | draw
  deriving DecidableEq, Repr

/-- Embeds `BattleSimulator._determine_winner`: higher victory points
win, ties broken by remaining points-value of living units, otherwise a
draw. -/
def determineWinner (st : SimState) : Winner :=
  if st.vp1 > st.vp2 then Winner.player1
  else if st.vp2 > st.vp1 then Winner.player2
  else
    let pts1 : ℤ := ((st.p1.filter (fun u => !u.is_destroyed)).map (fun u => u.points_cost)).sum
    let pts2 : ℤ := ((st.p2.filter (fun u => !u.is_destroyed)).map (fun u => u.points_cost)).sum
    if pts1 > pts2 then Winner.player1
    else if pts2 > pts1 then Winner.player2
    else Winner.draw

/-- Embeds the dictionary built by `_generate_battle_report`. -/
structure BattleReport where
  turns_played : ℕ
  player_1_vp : ℤ
  player_2_vp : ℤ
  player_1_units_alive : ℕ
  player_2_units_alive : ℕ
  player_1_points_remaining : ℤ
  player_2_points_remaining : ℤ
  winner : Winner
  deriving DecidableEq, Repr

/-- Embeds `BattleSimulator._generate_battle_report`. -/
def generateBattleReport (st : SimState) : BattleReport :=
  let alive1 := st.p1.filter (fun u => !u.is_destroyed)
  let alive2 := st.p2.filter (fun u => !u.is_destroyed)
  { turns_played := st.turn
    player_1_vp := st.vp1
    player_2_vp := st.vp2
    player_1_units_alive := alive1.length
    player_2_units_alive := alive2.length
    player_1_points_remaining := (alive1.map (fun u => u.points_cost)).sum
    player_2_points_remaining := (alive2.map (fun u => u.points_cost)).sum
    winner := determineWinner st }

/-- Embeds `BattleSimulator.simulate_battle` (`battle_simulator.py`
lines 611-648) on already-deployed unit lists (deployment only assigns
the starting positions, which are taken as given here): run the turn
loop from turn 1, starting from the `BattleState()` defaults
(`turn = 1`, no victory points), and generate the report. -/
def simulate_battle (strat : Strategy) (terrain : List TerrainFeature) (g : ℕ → ℕ)
    (max_turns : ℕ) (p1 p2 : List BattleUnit) (objs : List Objective) : BattleReport :=
  let st0 : SimState :=
    { p1 := p1, p2 := p2, objectives := objs, turn := 1, vp1 := 0, vp2 := 0, rng := 0 }
  generateBattleReport (runBattle strat terrain g max_turns 1 st0)

/-- Spec-side reading of claim C6 (for comparison only): the index of
the NEAREST living enemy within 1", the first such enemy on distance
ties. -/
def nearestEnemyIdxWithin1 (u : BattleUnit) (elist : List BattleUnit) : Option ℕ :=
  match elist.enum.filter
      (fun p => !p.2.is_destroyed && distLE (dist2 u.position p.2.position) 1) with
  | [] => none
  | c :: cs =>
      some (cs.foldl
        (fun best p =>
          if dist2 u.position p.2.position < dist2 u.position best.2.position then p else best)
        c).1

/-- Constant random stream on which every D6 comes up 6. -/
def gSix : ℕ → ℕ := fun _ => 5

/-- Weapon fixture used by concrete scenarios: one attack, hitting on
2+, strength 4, no AP, one damage. -/
def wFist : BattleWeapon :=
  { is_ranged := false, range := 1, attacks := DiceVal.fixed 1, bs_ws := 2,
    strength := 4, ap := 0, damage := DiceVal.fixed 1 }

/-- Stat-line fixture: T4, no armor save (7+), leadership 7. -/
def statsPlain : BattleUnitStats :=
  { movement := 6, toughness := 4, save := 7, wounds := 1, leadership := 7,
    oc := 1, invuln_save := none }

/-- A battle-shocked one-model unit standing at the origin with a melee
weapon, locked in melee. -/
def cShocked : BattleUnit :=
  { player_id := 0, stats := statsPlain, model_count := 1, wounds_per_model := 1,
    current_wounds := 1, ranged_weapons := [], melee_weapons := [wFist],
    position := { x := 0, y := 0 }, has_moved := false, has_advanced := false,
    has_fallen_back := false, has_shot := false, has_fought := false,
    in_melee := true, state := UnitState.BATTLESHOCK, is_character := false,
    points_cost := 10 }

/-- A defenceless enemy unit half an inch away (2 wounds on one
2-wound model). -/
def cVictim : BattleUnit :=
  { player_id := 1, stats := statsPlain, model_count := 1, wounds_per_model := 2,
    current_wounds := 2, ranged_weapons := [], melee_weapons := [],
    position := { x := 0, y := 1 / 2 }, has_moved := false, has_advanced := false,
    has_fallen_back := false, has_shot := false, has_fought := false,
    in_melee := false, state := UnitState.ACTIVE, is_character := false,
    points_cost := 10 }

/-- Fighter fixture for the target-selection scenario: like `cShocked`
but active. -/
def cFighter : BattleUnit :=
  { cShocked with state := UnitState.ACTIVE }

/-- First enemy in list order, exactly 1" away. -/
def cFarEnemy : BattleUnit :=
  { cVictim with position := { x := 0, y := 1 } }

/-- Second enemy in list order, only half an inch away (the nearest). -/
def cNearEnemy : BattleUnit :=
  { cVictim with position := { x := 0, y := 1 / 2 } }

/-- Trivial strategy instantiation used by concrete scenarios. -/
def stratNull : Strategy :=
  { selectMov := fun _ _ _ _ => { x := 0, y := 0 }
    selectShoot := fun _ _ => none
    selectCharge := fun _ _ => none
    chargeLanding := fun p _ => p }

/-- Fight-phase entry pointing at index 0 of the active player's list. -/
def entry0 : FightEntry :=
  { side := false, idx := 0, pid := 0, mov := 6 }

/-- A fighter that has already fought this phase. -/
def cTired : BattleUnit :=
  { cFighter with has_fought := true }

/-! Helper lemmas. -/

theorem ratTrunc_intCast (n : ℤ) : ratTrunc (n : ℚ) = n := by
  unfold ratTrunc
  split_ifs with h
  · exact_mod_cast Int.floor_intCast n
  · exact_mod_cast Int.ceil_intCast n

theorem ratTrunc_int_div_two (n : ℤ) : ratTrunc ((n : ℚ) / 2) = n.tdiv 2 := by
  unfold ratTrunc
  have h2 : ((2 : ℚ)) = ((2 : ℕ) : ℚ) := by norm_num
  split_ifs with h
  · have hn : (0 : ℤ) ≤ n := by
      by_contra hc
      push_neg at hc
      have : ((n : ℚ) / 2) < 0 := by
        apply div_neg_of_neg_of_pos
        · exact_mod_cast hc
        · norm_num
      linarith
    rw [h2, Rat.floor_intCast_div_natCast, Int.tdiv_eq_ediv hn (by norm_num)]
    norm_num
  · push_neg at h
    have hn : n < 0 := by
      by_contra hc
      push_neg at hc
      have : (0 : ℚ) ≤ (n : ℚ) / 2 := by
        apply div_nonneg
        · exact_mod_cast hc
        · norm_num
      linarith
    have hceil : ⌈(n : ℚ) / 2⌉ = -⌊(↑(-n) : ℚ) / 2⌋ := by
      rw [← Int.ceil_neg]
      congr 1
      push_cast
      ring
    rw [hceil, h2, Rat.floor_intCast_div_natCast]
    have : n.tdiv 2 = -((-n).tdiv 2) := by
      rw [Int.neg_tdiv, neg_neg]
    rw [this, Int.tdiv_eq_ediv (by omega) (by norm_num)]
    norm_num

theorem ceilDiv_mono {w : ℤ} (hw : 0 < w) {a b : ℤ} (h : a ≤ b) :
    ceilDiv a w ≤ ceilDiv b w := by
  unfold ceilDiv
  have hb : (-b).fdiv w ≤ (-a).fdiv w := by
    rw [Int.fdiv_eq_ediv _ (le_of_lt hw), Int.fdiv_eq_ediv _ (le_of_lt hw)]
    exact Int.ediv_le_ediv hw (by omega)
  omega

theorem models_remaining_state (u : BattleUnit) (s : UnitState) :
    BattleUnit.models_remaining { u with state := s } = u.models_remaining := rfl

theorem take_damage_current_wounds (u : BattleUnit) (d : ℤ) :
    (u.take_damage d).1.current_wounds = max 0 (u.current_wounds - d) := by
  unfold BattleUnit.take_damage
  dsimp only
  split_ifs <;> rfl

theorem take_damage_models (u : BattleUnit) (d : ℤ) :
    (u.take_damage d).1.models_remaining
      = max 0 (ceilDiv (max 0 (u.current_wounds - d)) u.wounds_per_model) := by
  unfold BattleUnit.take_damage BattleUnit.models_remaining
  dsimp only
  split_ifs <;> rfl

theorem take_damage_kills (u : BattleUnit) (d : ℤ) :
    (u.take_damage d).2
      = u.models_remaining - max 0 (ceilDiv (max 0 (u.current_wounds - d)) u.wounds_per_model) :=
  rfl

/-! Claim theorems. -/

/-- C1: for every pair of positive integers, both wound-threshold
functions (`calculate_wound_requirement` in `combat_simulator.py` and
`_calculate_wound_roll` in `battle_simulator.py`) agree and realise the
fixed first-match table: 2 when `strength >= 2*toughness`, else 3 when
`strength > toughness`, else 4 when equal, else 5 when
`strength*2 > toughness`, else 6. -/
theorem c1_wound_threshold_table (s t : ℤ) (hs : 0 < s) (ht : 0 < t) :
    calculate_wound_requirement s t = calculate_wound_roll s t
    ∧ (2 * t ≤ s → calculate_wound_requirement s t = 2)
    ∧ (t < s → s < 2 * t → calculate_wound_requirement s t = 3)
    ∧ (s = t → calculate_wound_requirement s t = 4)
    ∧ (s < t → t < 2 * s → calculate_wound_requirement s t = 5)
    ∧ (2 * s ≤ t → calculate_wound_requirement s t = 6) := by
  refine ⟨?_, fun h => ?_, fun h1 h2 => ?_, fun h => ?_, fun h1 h2 => ?_, fun h => ?_⟩ <;>
    (simp only [calculate_wound_requirement, calculate_wound_roll]; split_ifs <;> omega)

/-- Witness for C1 at S8 vs T4. -/
theorem c1_wound_threshold_table_witness :
    (0 : ℤ) < 8 ∧ (0 : ℤ) < 4 ∧ calculate_wound_requirement 8 4 = 2 :=
  ⟨by norm_num, by norm_num,
    (c1_wound_threshold_table 8 4 (by norm_num) (by norm_num)).2.1 (by norm_num)⟩

/-- C2: in the save step the modified threshold is
`base_save - effective_armor_penetration + save_modifier`; an
invulnerable save replaces it exactly when numerically lower (never
both); a final threshold strictly above 6 fails every save and one `<= 1`
passes every save, in both cases consuming no dice. -/
theorem c2_save_threshold (g : ℕ → ℕ) (i nw : ℕ) (save ap sm : ℤ) (inv : Option ℤ)
    (rr : Reroll) :
    (inv = none → saveRequirement save ap sm inv = save - ap + sm)
    ∧ (∀ v, inv = some v → v < save - ap + sm → saveRequirement save ap sm inv = v)
    ∧ (∀ v, inv = some v → ¬ v < save - ap + sm →
        saveRequirement save ap sm inv = save - ap + sm)
    ∧ (6 < saveRequirement save ap sm inv →
        saveStep g i nw (saveRequirement save ap sm inv) rr = (nw, i))
    ∧ (saveRequirement save ap sm inv ≤ 1 →
        saveStep g i nw (saveRequirement save ap sm inv) rr = (0, i)) := by
  refine ⟨fun h => ?_, fun v h hv => ?_, fun v h hv => ?_, fun h => ?_, fun h => ?_⟩
  · simp [saveRequirement, h]
  · simp [saveRequirement, h, hv]
  · simp [saveRequirement, h, hv]
  · unfold saveStep
    rw [if_pos (by omega)]
  · unfold saveStep
    rw [if_neg (by omega), if_pos h]

/-- Witness for C2: an impossible 8+ armor save with no invulnerable
fails all five wounds without consuming dice. -/
theorem c2_save_threshold_witness :
    6 < saveRequirement 8 0 0 none
    ∧ saveStep gSix 3 5 (saveRequirement 8 0 0 none) Reroll.noReroll = (5, 3) :=
  ⟨by decide,
    (c2_save_threshold gSix 3 5 8 0 0 none Reroll.noReroll).2.2.2.1 (by decide)⟩

/-- C4 counterexample: at S4 vs T8 (base threshold 6) with wound
modifier +1 and Transhuman active, the code rolls against
`max(4, base) = 6`, not against `max(4, modified) = 5` as the claim
states. -/
theorem c4_transhuman_counterexample :
    effectiveWoundRequirement 4 8 1 none true = 6
    ∧ specTranshumanThreshold 4 8 1 none = 5
    ∧ effectiveWoundRequirement 4 8 1 none true ≠ specTranshumanThreshold 4 8 1 none := by
  decide

/-- C4 amended: with the transhuman-style rule active the effective
wound threshold is `max(4, base_threshold)` where `base_threshold` is
the unmodified S-vs-T table value; wound modifiers and the anti-target
cap are ignored entirely. -/
theorem c4_transhuman_amended (s t wm : ℤ) (anti : Option ℤ) :
    effectiveWoundRequirement s t wm anti true = max 4 (calculate_wound_requirement s t)
    ∧ 4 ≤ effectiveWoundRequirement s t wm anti true
    ∧ effectiveWoundRequirement s t wm anti true
        = effectiveWoundRequirement s t 0 none true := by
  unfold effectiveWoundRequirement
  simp

/-- C9 counterexample: for "2D6-10" the deterministic evaluation
returns the clamped value 1, not `2 × 3.5 - 10 = -3` as the claim's
unclamped formula states. -/
theorem c9_dice_mean_counterexample :
    parseDiceAvg (DiceVal.dice 2 Die.d6 (-10)) = 1
    ∧ specDiceAvg 2 Die.d6 (-10) = -3
    ∧ parseDiceAvg (DiceVal.dice 2 Die.d6 (-10)) ≠ specDiceAvg 2 Die.d6 (-10) := by
  have h : specDiceAvg 2 Die.d6 (-10) = -3 := by
    unfold specDiceAvg dieMean
    rw [show ((2 : ℕ) : ℚ) * (7 / 2) = ((7 : ℤ) : ℚ) by norm_num, ratTrunc_intCast]
    norm_num
  exact ⟨by decide, h, by rw [h]; decide⟩

/-- C9 amended: the deterministic evaluation of `mult` dice plus
constant `c` is `mult × mean(die) + c` truncated toward zero (Python
`int()`), clamped below at 1. -/
theorem c9_dice_mean_amended (m : ℕ) (d : Die) (c : ℤ) :
    parseDiceAvg (DiceVal.dice m d c) = max 1 (ratTrunc ((m : ℚ) * dieMean d + c)) := by
  cases d
  · unfold parseDiceAvg dieMean
    rw [show (m : ℚ) * 2 + c = ((2 * (m : ℤ) + c : ℤ) : ℚ) by push_cast; ring,
      ratTrunc_intCast]
  · unfold parseDiceAvg dieMean
    rw [show (m : ℚ) * (7 / 2) + c = ((7 * (m : ℤ) + 2 * c : ℤ) : ℚ) / 2 by push_cast; ring,
      ratTrunc_int_div_two]

theorem countGE_zero (g : ℕ → ℕ) (i : ℕ) (thr : ℤ) : countGE g i 0 thr = 0 := rfl

theorem countLT_zero (g : ℕ → ℕ) (i : ℕ) (thr : ℤ) : countLT g i 0 thr = 0 := rfl

theorem countGE_succ (g : ℕ → ℕ) (i n : ℕ) (thr : ℤ) :
    countGE g i (n + 1) thr = (if thr ≤ d6 g i then 1 else 0) + countGE g (i + 1) n thr := by
  unfold countGE
  rw [List.range_succ_eq_map, List.filter_cons, List.filter_map]
  have hfun : ((fun j => decide (thr ≤ d6 g (i + j))) ∘ Nat.succ)
      = (fun j => decide (thr ≤ d6 g (i + 1 + j))) := by
    funext j
    have h : i + Nat.succ j = i + 1 + j := by omega
    simp [Function.comp, h]
  rw [hfun]
  by_cases hp : thr ≤ d6 g i
  · simp [hp]
    omega
  · simp [hp]

theorem countLT_succ (g : ℕ → ℕ) (i n : ℕ) (thr : ℤ) :
    countLT g i (n + 1) thr = (if d6 g i < thr then 1 else 0) + countLT g (i + 1) n thr := by
  unfold countLT
  rw [List.range_succ_eq_map, List.filter_cons, List.filter_map]
  have hfun : ((fun j => decide (d6 g (i + j) < thr)) ∘ Nat.succ)
      = (fun j => decide (d6 g (i + 1 + j) < thr)) := by
    funext j
    have h : i + Nat.succ j = i + 1 + j := by omega
    simp [Function.comp, h]
  rw [hfun]
  by_cases hp : d6 g i < thr
  · simp [hp]
    omega
  · simp [hp]

theorem countGE_add (g : ℕ → ℕ) (thr : ℤ) :
    ∀ (m : ℕ) (i n : ℕ),
      countGE g i (m + n) thr = countGE g i m thr + countGE g (i + m) n thr := by
  intro m
  induction m with
  | zero => intro i n; simp [countGE_zero]
  | succ m ih =>
      intro i n
      rw [show m + 1 + n = m + n + 1 from by omega, countGE_succ, ih (i + 1) n,
        countGE_succ]
      have h : i + 1 + m = i + (m + 1) := by omega
      rw [h]
      omega

theorem countLT_add (g : ℕ → ℕ) (thr : ℤ) :
    ∀ (m : ℕ) (i n : ℕ),
      countLT g i (m + n) thr = countLT g i m thr + countLT g (i + m) n thr := by
  intro m
  induction m with
  | zero => intro i n; simp [countLT_zero]
  | succ m ih =>
      intro i n
      rw [show m + 1 + n = m + n + 1 from by omega, countLT_succ, ih (i + 1) n,
        countLT_succ]
      have h : i + 1 + m = i + (m + 1) := by omega
      rw [h]
      omega

theorem countGE_add_countLT (g : ℕ → ℕ) (thr : ℤ) :
    ∀ (n i : ℕ), countGE g i n thr + countLT g i n thr = n := by
  intro n
  induction n with
  | zero => intro i; simp [countGE_zero, countLT_zero]
  | succ n ih =>
      intro i
      rw [countGE_succ, countLT_succ]
      have := ih (i + 1)
      by_cases hp : thr ≤ d6 g i
      · rw [if_pos hp, if_neg (by omega)]
        omega
      · rw [if_neg hp, if_pos (by omega)]
        omega

theorem countLT_mono (g : ℕ → ℕ) {f fh : ℤ} (hle : f ≤ fh) :
    ∀ (n i : ℕ), countLT g i n f ≤ countLT g i n fh := by
  intro n
  induction n with
  | zero => intro i; simp [countLT_zero]
  | succ n ih =>
      intro i
      rw [countLT_succ, countLT_succ]
      have := ih (i + 1)
      by_cases hp : d6 g i < f
      · rw [if_pos hp, if_pos (by omega)]
        omega
      · by_cases hq : d6 g i < fh
        · rw [if_neg hp, if_pos hq]
          omega
        · rw [if_neg hp, if_neg hq]
          omega

theorem fnpInstance_spec (g : ℕ → ℕ) (f : ℤ) :
    ∀ (d i : ℕ), fnpInstance g f d i = (countGE g i d f, countLT g i d f, i + d) := by
  intro d
  induction d with
  | zero => intro i; simp [fnpInstance, countGE_zero, countLT_zero]
  | succ d ih =>
      intro i
      by_cases h : f ≤ d6 g i
      · simp only [fnpInstance, ih (i + 1), fnpPointKept, ge_iff_le, countGE_succ,
          countLT_succ, if_pos h, if_neg (show ¬ d6 g i < f by omega), decide_eq_true_eq]
        refine congrArg₂ Prod.mk (by omega) (congrArg₂ Prod.mk (by omega) (by omega))
      · simp only [fnpInstance, ih (i + 1), fnpPointKept, ge_iff_le, countGE_succ,
          countLT_succ, if_neg h, if_pos (show d6 g i < f by omega), decide_eq_true_eq]
        refine congrArg₂ Prod.mk (by omega) (congrArg₂ Prod.mk (by omega) (by omega))

theorem fnpStep_spec (g : ℕ → ℕ) (f : ℤ) :
    ∀ (instances : List ℕ) (i : ℕ),
      fnpStep g f instances i
        = (countGE g i instances.sum f, countLT g i instances.sum f, i + instances.sum) := by
  intro instances
  induction instances with
  | nil => intro i; simp [fnpStep, countGE_zero, countLT_zero]
  | cons dmg ds ih =>
      intro i
      simp only [fnpStep, fnpInstance_spec, ih, List.sum_cons]
      rw [countGE_add g f dmg i ds.sum, countLT_add g f dmg i ds.sum]
      refine congrArg₂ Prod.mk rfl (congrArg₂ Prod.mk rfl (by omega))

/-- C10: with a feel-no-pain threshold `f > 0` active, each single
point of damage is rolled for independently; a point is prevented
exactly when its D6 roll is strictly below `f` and kept exactly when the
roll is `f` or higher, so for every fixed roll stream (hence on
average) a lower threshold prevents at most as many points. -/
theorem c10_feel_no_pain (g : ℕ → ℕ) (i : ℕ) (instances : List ℕ) (f fh : ℤ)
    (hf : 0 < f) (hle : f ≤ fh) :
    (∀ j, fnpPointKept g j f = true ↔ f ≤ d6 g j)
    ∧ (∀ j, fnpPointKept g j f = false ↔ d6 g j < f)
    ∧ (fnpStep g f instances i).2.1 = countLT g i instances.sum f
    ∧ (fnpStep g f instances i).1 = countGE g i instances.sum f
    ∧ (fnpStep g f instances i).1 + (fnpStep g f instances i).2.1 = instances.sum
    ∧ (fnpStep g f instances i).2.1 ≤ (fnpStep g fh instances i).2.1 := by
  refine ⟨fun j => ?_, fun j => ?_, ?_, ?_, ?_, ?_⟩
  · simp [fnpPointKept]
  · simp [fnpPointKept]
  · rw [fnpStep_spec]
  · rw [fnpStep_spec]
  · rw [fnpStep_spec]
    exact countGE_add_countLT g f instances.sum i
  · rw [fnpStep_spec, fnpStep_spec]
    exact countLT_mono g hle instances.sum i

/-- Witness for C10 at thresholds 5 and 6 on one 2-point damage
instance. -/
theorem c10_feel_no_pain_witness :
    (0 : ℤ) < 5 ∧ (5 : ℤ) ≤ 6
    ∧ (fnpStep gSix 5 [2] 0).2.1 ≤ (fnpStep gSix 6 [2] 0).2.1 :=
  ⟨by norm_num, by norm_num,
    (c10_feel_no_pain gSix 0 [2] 5 6 (by norm_num) (by norm_num)).2.2.2.2.2⟩

theorem take_damage_mono (u : BattleUnit) (d : ℤ)
    (hw : 0 < u.wounds_per_model) (hcw : 0 ≤ u.current_wounds) (hd : 0 ≤ d) :
    (u.take_damage d).1.models_remaining ≤ u.models_remaining := by
  rw [take_damage_models]
  unfold BattleUnit.models_remaining
  exact max_le_max (le_refl 0) (ceilDiv_mono hw (by omega))

theorem take_damage_kills_nonneg (u : BattleUnit) (d : ℤ)
    (hw : 0 < u.wounds_per_model) (hcw : 0 ≤ u.current_wounds) (hd : 0 ≤ d) :
    0 ≤ (u.take_damage d).2 := by
  have h := take_damage_mono u d hw hcw hd
  rw [take_damage_models] at h
  rw [take_damage_kills]
  omega

theorem resolveMelee_spec (g : ℕ → ℕ) (i : ℕ) (a : BattleUnit) (w : BattleWeapon)
    (d : BattleUnit) (hdpw : 0 ≤ parseDiceAvg w.damage) (hcw : 0 ≤ d.current_wounds)
    (hw : 0 < d.wounds_per_model) :
    0 ≤ (resolveMelee g i a w d).1
    ∧ 0 ≤ (resolveMelee g i a w d).2.1
    ∧ (resolveMelee g i a w d).2.2.1.current_wounds
        = max 0 (d.current_wounds - (resolveMelee g i a w d).1) := by
  have core : ∀ tot : ℤ, 0 ≤ tot →
      0 ≤ tot ∧ 0 ≤ (d.take_damage tot).2
      ∧ (d.take_damage tot).1.current_wounds = max 0 (d.current_wounds - tot) :=
    fun tot htot => ⟨htot, take_damage_kills_nonneg d tot hw hcw htot,
      take_damage_current_wounds d tot⟩
  simp only [resolveMelee]
  split_ifs with h1 h2 h3 <;> dsimp only
  · exact ⟨le_refl 0, le_refl 0, by omega⟩
  · exact ⟨le_refl 0, le_refl 0, by omega⟩
  · exact core _ (mul_nonneg (Int.natCast_nonneg _) hdpw)
  · exact core _ (mul_nonneg (Int.natCast_nonneg _) hdpw)

/-- C3: applying a non-negative total damage to a defender sets its
wound pool to `max(0, before - damage)`; the pool is never negative,
`models_remaining` does not increase, the reported kill count equals
`models_before - models_after` and is non-negative; and one melee
resolution call reports non-negative damage and kills and leaves the
defender's pool at `max(0, before - damage_dealt)`. -/
theorem c3_damage_conservation (u : BattleUnit) (dmg : ℤ)
    (hw : 0 < u.wounds_per_model) (hcw : 0 ≤ u.current_wounds) (hd : 0 ≤ dmg) :
    (u.take_damage dmg).1.current_wounds = max 0 (u.current_wounds - dmg)
    ∧ 0 ≤ (u.take_damage dmg).1.current_wounds
    ∧ (u.take_damage dmg).1.models_remaining ≤ u.models_remaining
    ∧ (u.take_damage dmg).2 = u.models_remaining - (u.take_damage dmg).1.models_remaining
    ∧ 0 ≤ (u.take_damage dmg).2
    ∧ (∀ g i a w, 0 ≤ parseDiceAvg w.damage →
        0 ≤ (resolveMelee g i a w u).1
        ∧ 0 ≤ (resolveMelee g i a w u).2.1
        ∧ (resolveMelee g i a w u).2.2.1.current_wounds
            = max 0 (u.current_wounds - (resolveMelee g i a w u).1)) := by
  refine ⟨take_damage_current_wounds u dmg, ?_, take_damage_mono u dmg hw hcw hd, ?_,
    take_damage_kills_nonneg u dmg hw hcw hd, fun g i a w hdpw =>
      resolveMelee_spec g i a w u hdpw hcw hw⟩
  · rw [take_damage_current_wounds]
    omega
  · rw [take_damage_kills, take_damage_models]

/-- Witness for C3: two damage on the two-wound fixture unit. -/
theorem c3_damage_conservation_witness :
    (0 : ℤ) < cVictim.wounds_per_model ∧ (0 : ℤ) ≤ cVictim.current_wounds
    ∧ (0 : ℤ) ≤ 2
    ∧ (cVictim.take_damage 2).1.current_wounds = max 0 (cVictim.current_wounds - 2) :=
  ⟨by decide, by decide, by decide,
    (c3_damage_conservation cVictim 2 (by decide) (by decide) (by decide)).1⟩

theorem foldl_add_map {α : Type} (f : α → ℤ) :
    ∀ (l : List α) (a : ℤ), l.foldl (fun acc u => acc + f u) a = a + (l.map f).sum := by
  intro l
  induction l with
  | nil => intro a; simp
  | cons x xs ih =>
      intro a
      simp only [List.foldl_cons, List.map_cons, List.sum_cons, ih]
      ring

theorem controlSum_eq (units : List BattleUnit) (obj : Objective) :
    controlSum units obj
      = ((units.filter
            (fun u => !u.is_destroyed && distLE (dist2 u.position obj.position) 3)).map
          (fun u => u.stats.oc * u.models_remaining)).sum := by
  unfold controlSum
  rw [foldl_add_map]
  ring

theorem scoreObjectivesList_eq (p1 p2 : List BattleUnit) :
    ∀ (objs : List Objective) (vp1 vp2 : ℤ),
      scoreObjectivesList p1 p2 (vp1, vp2) objs
        = ((vp1 + ((objs.filter
                (fun o => decide (controlSum p2 o < controlSum p1 o))).map
              (fun o => o.value)).sum,
            vp2 + ((objs.filter
                (fun o => decide (controlSum p1 o < controlSum p2 o))).map
              (fun o => o.value)).sum),
           objs.map (fun o =>
             if controlSum p2 o < controlSum p1 o then { o with controlled_by := some 0 }
             else if controlSum p1 o < controlSum p2 o then { o with controlled_by := some 1 }
             else o)) := by
  intro objs
  induction objs with
  | nil => intro vp1 vp2; simp [scoreObjectivesList]
  | cons o objs ih =>
      intro vp1 vp2
      by_cases h1 : controlSum p2 o < controlSum p1 o
      · have h2 : ¬ controlSum p1 o < controlSum p2 o := by omega
        have hstep : scoreStep p1 p2 (vp1, vp2) o
            = ((vp1 + o.value, vp2), { o with controlled_by := some 0 }) := by
          unfold scoreStep
          rw [if_pos h1]
        have d1 : (decide (controlSum p2 o < controlSum p1 o)) = true := by simp [h1]
        have d2 : (decide (controlSum p1 o < controlSum p2 o)) = false := by simp [h2]
        simp only [scoreObjectivesList, hstep, ih, List.filter_cons, List.map_cons, d1, d2]
        refine congrArg₂ Prod.mk (congrArg₂ Prod.mk ?_ ?_) ?_
        · simp [List.sum_cons]
          ring
        · simp
        · simp [h1]
      · by_cases h2 : controlSum p1 o < controlSum p2 o
        · have hstep : scoreStep p1 p2 (vp1, vp2) o
              = ((vp1, vp2 + o.value), { o with controlled_by := some 1 }) := by
            unfold scoreStep
            rw [if_neg h1, if_pos h2]
          have d1 : (decide (controlSum p2 o < controlSum p1 o)) = false := by simp [h1]
          have d2 : (decide (controlSum p1 o < controlSum p2 o)) = true := by simp [h2]
          simp only [scoreObjectivesList, hstep, ih, List.filter_cons, List.map_cons,
            d1, d2]
          refine congrArg₂ Prod.mk (congrArg₂ Prod.mk ?_ ?_) ?_
          · simp
          · simp [List.sum_cons]
            ring
          · simp [h1, h2]
        · have hstep : scoreStep p1 p2 (vp1, vp2) o = ((vp1, vp2), o) := by
            unfold scoreStep
            rw [if_neg h1, if_neg h2]
          have d1 : (decide (controlSum p2 o < controlSum p1 o)) = false := by simp [h1]
          have d2 : (decide (controlSum p1 o < controlSum p2 o)) = false := by simp [h2]
          simp only [scoreObjectivesList, hstep, ih, List.filter_cons, List.map_cons,
            d1, d2]
          refine congrArg₂ Prod.mk (congrArg₂ Prod.mk ?_ ?_) ?_
          · simp
          · simp
          · simp [h1, h2]

/-- C7: at end-of-turn scoring each side's control sum per objective is
`oc × models_remaining` over its living units within 3" of the marker;
the strictly greater sum gains the objective's value and takes control
of it; on a tie (including zero-zero) no points are awarded and
`controlled_by` is unchanged. -/
theorem c7_objective_scoring (p1 p2 : List BattleUnit) (vp1 vp2 : ℤ)
    (objs : List Objective) :
    (∀ obj, controlSum p1 obj
        = ((p1.filter
              (fun u => !u.is_destroyed && distLE (dist2 u.position obj.position) 3)).map
            (fun u => u.stats.oc * u.models_remaining)).sum)
    ∧ (scoreObjectivesList p1 p2 (vp1, vp2) objs).1.1
        = vp1 + ((objs.filter
              (fun o => decide (controlSum p2 o < controlSum p1 o))).map
            (fun o => o.value)).sum
    ∧ (scoreObjectivesList p1 p2 (vp1, vp2) objs).1.2
        = vp2 + ((objs.filter
              (fun o => decide (controlSum p1 o < controlSum p2 o))).map
            (fun o => o.value)).sum
    ∧ (scoreObjectivesList p1 p2 (vp1, vp2) objs).2
        = objs.map (fun o =>
            if controlSum p2 o < controlSum p1 o then { o with controlled_by := some 0 }
            else if controlSum p1 o < controlSum p2 o then { o with controlled_by := some 1 }
            else o) := by
  refine ⟨fun obj => controlSum_eq p1 obj, ?_, ?_, ?_⟩ <;>
    rw [scoreObjectivesList_eq p1 p2 objs vp1 vp2]

theorem battleTurn_turn (strat : Strategy) (terrain : List TerrainFeature) (g : ℕ → ℕ)
    (t : ℕ) (st : SimState) : (battleTurn strat terrain g t st).turn = t := rfl

theorem runBattle_turn_le (strat : Strategy) (terrain : List TerrainFeature) (g : ℕ → ℕ) :
    ∀ (fuel t : ℕ) (st : SimState),
      (runBattle strat terrain g fuel t st).turn ≤ max st.turn (t + fuel - 1) := by
  intro fuel
  induction fuel with
  | zero => intro t st; simp [runBattle]
  | succ fuel ih =>
      intro t st
      show (if checkBattleEnd (battleTurn strat terrain g t st).p1
              (battleTurn strat terrain g t st).p2
            then battleTurn strat terrain g t st
            else runBattle strat terrain g fuel (t + 1)
              (battleTurn strat terrain g t st)).turn
          ≤ max st.turn (t + (fuel + 1) - 1)
      split_ifs with h
      · rw [battleTurn_turn]
        omega
      · have := ih (t + 1) (battleTurn strat terrain g t st)
        rw [battleTurn_turn] at this
        omega

/-- C8: for every `max_turns >= 1`, every strategy instantiation, every
random stream and every pair of non-empty starting rosters,
`simulate_battle` (a structurally bounded loop, hence finitely
terminating) returns a report whose `turns_played` is at most
`max_turns`. -/
theorem c8_battle_termination (strat : Strategy) (terrain : List TerrainFeature)
    (g : ℕ → ℕ) (max_turns : ℕ) (p1 p2 : List BattleUnit) (objs : List Objective)
    (hm : 1 ≤ max_turns) (h1 : p1 ≠ []) (h2 : p2 ≠ []) :
    (simulate_battle strat terrain g max_turns p1 p2 objs).turns_played ≤ max_turns := by
  show (runBattle strat terrain g max_turns 1
      { p1 := p1, p2 := p2, objectives := objs, turn := 1, vp1 := 0, vp2 := 0,
        rng := 0 }).turn ≤ max_turns
  have := runBattle_turn_le strat terrain g max_turns 1
    { p1 := p1, p2 := p2, objectives := objs, turn := 1, vp1 := 0, vp2 := 0, rng := 0 }
  simp only at this
  omega

/-- Witness for C8: a one-turn battle between the fixture units. -/
theorem c8_battle_termination_witness :
    1 ≤ 1 ∧ [cFighter] ≠ ([] : List BattleUnit) ∧ [cVictim] ≠ ([] : List BattleUnit)
    ∧ (simulate_battle stratNull [] gSix 1 [cFighter] [cVictim] []).turns_played ≤ 1 :=
  ⟨le_refl 1, by simp, by simp,
    c8_battle_termination stratNull [] gSix 1 [cFighter] [cVictim] [] (le_refl 1)
      (by simp) (by simp)⟩

theorem get?_set_self {α : Type} (l : List α) (j : ℕ) (a : α) (h : j < l.length) :
    (l.set j a).get? j = some a := by
  rw [List.get?_set_eq, List.get?_eq_get h]
  rfl

theorem get?_set_isSome {α : Type} (l : List α) (k j : ℕ) (a x : α)
    (h : l.get? j = some x) : ∃ y, (l.set k a).get? j = some y := by
  by_cases hkj : k = j
  · subst hkj
    have hb : k < l.length := (List.get?_eq_some.mp h).1
    exact ⟨a, get?_set_self l k a hb⟩
  · exact ⟨x, by rw [List.get?_set_ne _ _ hkj]; exact h⟩

theorem movementActivation_get (selectMov : SelectMovement) (objs : List Objective)
    (enemies units : List BattleUnit) (k j : ℕ) (u : BattleUnit)
    (hu : units.get? j = some u) (hsh : u.state = UnitState.BATTLESHOCK) :
    (movementActivation selectMov objs enemies units k).get? j = some u := by
  unfold movementActivation
  cases hk : units.get? k with
  | none => exact hu
  | some v =>
    dsimp only
    by_cases hskip : (v.is_destroyed || (v.state == UnitState.BATTLESHOCK)) = true
    · rw [if_pos hskip]
      exact hu
    · rw [if_neg hskip]
      by_cases hkj : k = j
      · subst hkj
        rw [hk] at hu
        cases hu
        simp [hsh] at hskip
      · rw [List.get?_set_ne _ _ hkj]
        exact hu

theorem movementPhase_shocked (selectMov : SelectMovement) (objs : List Objective)
    (enemies units : List BattleUnit) (j : ℕ) (u : BattleUnit)
    (hu : units.get? j = some u) (hsh : u.state = UnitState.BATTLESHOCK) :
    (movementPhase selectMov objs enemies units).get? j = some u := by
  unfold movementPhase
  have hgen : ∀ (ks : List ℕ) (us : List BattleUnit), us.get? j = some u →
      (ks.foldl (movementActivation selectMov objs enemies) us).get? j = some u := by
    intro ks
    induction ks with
    | nil => intro us h; exact h
    | cons k ks ih =>
        intro us h
        exact ih _ (movementActivation_get selectMov objs enemies us k j u h hsh)
  exact hgen _ units hu

theorem shootingActivation_acts (selectShoot : SelectTarget)
    (terrain : List TerrainFeature) (g : ℕ → ℕ) (units enemies : List BattleUnit)
    (i j : ℕ) (u t : BattleUnit) (ti : ℕ)
    (hu : units.get? j = some u) (hd : u.is_destroyed = false)
    (hr : u.ranged_weapons ≠ []) (hfb : u.has_fallen_back = false)
    (hsel : selectShoot u enemies = some ti) (ht : enemies.get? ti = some t) :
    (shootingActivation selectShoot terrain g (units, enemies, i) j).1.get? j
      = some { u with has_shot := true } := by
  have hre : u.ranged_weapons.isEmpty = false := by
    cases hrw : u.ranged_weapons
    · exact absurd hrw hr
    · rfl
  unfold shootingActivation
  simp only [hu, hd, hfb, hsel, ht, hre, Bool.or_self, Bool.false_eq_true, if_false]
  exact get?_set_self units j _ (List.get?_eq_some.mp hu).1

theorem chargeActivation_acts (selectCharge : SelectTarget)
    (chargeLanding : Position → Position → Position) (g : ℕ → ℕ)
    (units enemies : List BattleUnit) (i j : ℕ) (u t : BattleUnit) (ti : ℕ)
    (hu : units.get? j = some u) (hd : u.is_destroyed = false)
    (hfb : u.has_fallen_back = false) (hm : u.melee_weapons ≠ [])
    (hsel : selectCharge u enemies = some ti) (ht : enemies.get? ti = some t)
    (hroll : distLE (dist2 u.position t.position) ((d6 g i + d6 g (i + 1) : ℤ) : ℚ)
      = true) :
    (chargeActivation selectCharge chargeLanding g (units, enemies, i) j).1.get? j
      = some { u with position := chargeLanding u.position t.position, in_melee := true }
    ∧ (chargeActivation selectCharge chargeLanding g (units, enemies, i) j).2.1.get? ti
      = some { t with in_melee := true } := by
  have hme : u.melee_weapons.isEmpty = false := by
    cases hmw : u.melee_weapons
    · exact absurd hmw hm
    · rfl
  unfold chargeActivation
  simp only [hu, hd, hfb, hsel, ht, hroll, hme, Bool.or_self, Bool.false_eq_true,
    if_false, if_true]
  exact ⟨get?_set_self units j _ (List.get?_eq_some.mp hu).1,
    get?_set_self enemies ti _ (List.get?_eq_some.mp ht).1⟩

theorem modifyRef_lookup (us es : List BattleUnit) (e : FightEntry)
    (f : BattleUnit → BattleUnit) (x : BattleUnit) (hx : lookupRef us es e = some x) :
    lookupRef (modifyRef us es e f).1 (modifyRef us es e f).2 e = some (f x) := by
  unfold lookupRef modifyRef at *
  cases hside : e.side
  · simp only [hside, Bool.false_eq_true, if_neg, if_false] at hx ⊢
    rw [hx]
    exact get?_set_self us e.idx (f x) (List.get?_eq_some.mp hx).1
  · simp only [hside, if_true] at hx ⊢
    rw [hx]
    exact get?_set_self es e.idx (f x) (List.get?_eq_some.mp hx).1

theorem lookupRef_isSome_after_set (us es : List BattleUnit) (e : FightEntry)
    (side : Bool) (ti : ℕ) (a : BattleUnit) (x : BattleUnit)
    (hx : lookupRef us es e = some x) :
    ∃ y, lookupRef (if side then us else us.set ti a) (if side then es.set ti a else es) e
      = some y := by
  unfold lookupRef at *
  cases hside : e.side <;> cases side <;>
    simp only [hside, Bool.false_eq_true, if_neg, if_false, if_true] at hx ⊢
  · exact get?_set_isSome us ti e.idx a x hx
  · exact ⟨x, hx⟩
  · exact ⟨x, hx⟩
  · exact get?_set_isSome es ti e.idx a x hx

theorem fightActivation_skip_none (active : ℕ) (g : ℕ → ℕ)
    (us es : List BattleUnit) (i : ℕ) (e : FightEntry)
    (h : lookupRef us es e = none) :
    fightActivation active g (us, es, i) e = (us, es, i) := by
  unfold fightActivation
  simp [h]

theorem fightActivation_skip_guard (active : ℕ) (g : ℕ → ℕ)
    (us es : List BattleUnit) (i : ℕ) (e : FightEntry) (u : BattleUnit)
    (hu : lookupRef us es e = some u)
    (h : (u.is_destroyed || u.has_fought) = true) :
    fightActivation active g (us, es, i) e = (us, es, i) := by
  unfold fightActivation
  simp [hu, h]

theorem fightActivation_skip_no_target (active : ℕ) (g : ℕ → ℕ)
    (us es : List BattleUnit) (i : ℕ) (e : FightEntry) (u : BattleUnit)
    (hu : lookupRef us es e = some u)
    (hd : u.is_destroyed = false) (hf : u.has_fought = false)
    (hti : fightTargetIdx u (if (e.pid == active) then es else us) = none) :
    fightActivation active g (us, es, i) e = (us, es, i) := by
  unfold fightActivation
  have hg : (u.is_destroyed || u.has_fought) = false := by rw [hd, hf]; rfl
  simp only [hu, hg, Bool.false_eq_true, if_false, hti]

theorem fightActivation_resolves (active : ℕ) (g : ℕ → ℕ)
    (us es : List BattleUnit) (i : ℕ) (e : FightEntry) (u t : BattleUnit) (ti : ℕ)
    (hu : lookupRef us es e = some u)
    (hd : u.is_destroyed = false) (hf : u.has_fought = false)
    (hti : fightTargetIdx u (if (e.pid == active) then es else us) = some ti)
    (ht : (if (e.pid == active) then es else us).get? ti = some t) :
    ∃ v, lookupRef (fightActivation active g (us, es, i) e).1
        (fightActivation active g (us, es, i) e).2.1 e = some v
      ∧ v.has_fought = true := by
  unfold fightActivation
  have hg : (u.is_destroyed || u.has_fought) = false := by rw [hd, hf]; rfl
  simp only [hu, hg, Bool.false_eq_true, if_false]
  cases hpid : (e.pid == active) <;>
    simp only [hpid, Bool.false_eq_true, if_false, if_true] at hti ht ⊢ <;>
    simp only [hti, ht]
  · obtain ⟨y, hy⟩ := lookupRef_isSome_after_set us es e false ti
      (meleeLoop g u u.melee_weapons t i).2.2.1 u hu
    simp only [Bool.false_eq_true, if_false] at hy
    exact ⟨_, modifyRef_lookup _ _ e _ y hy, rfl⟩
  · obtain ⟨y, hy⟩ := lookupRef_isSome_after_set us es e true ti
      (meleeLoop g u u.melee_weapons t i).2.2.1 u hu
    simp only [if_true] at hy
    exact ⟨_, modifyRef_lookup _ _ e _ y hy, rfl⟩

theorem insertByMovDesc_perm (e : FightEntry) :
    ∀ (l : List FightEntry), (insertByMovDesc e l).Perm (e :: l) := by
  intro l
  induction l with
  | nil => exact List.Perm.refl _
  | cons f fs ih =>
      unfold insertByMovDesc
      by_cases h : e.mov > f.mov
      · rw [if_pos h]
      · rw [if_neg h]
        exact (List.Perm.cons f ih).trans (List.Perm.swap e f fs)

theorem insertByMovDesc_mem {x e : FightEntry} (l : List FightEntry)
    (hx : x ∈ insertByMovDesc e l) : x = e ∨ x ∈ l := by
  have := (insertByMovDesc_perm e l).mem_iff.mp hx
  simpa using this

theorem insertByMovDesc_sorted (e : FightEntry) :
    ∀ (l : List FightEntry), l.Pairwise (fun a b => b.mov ≤ a.mov) →
      (insertByMovDesc e l).Pairwise (fun a b => b.mov ≤ a.mov) := by
  intro l
  induction l with
  | nil => intro _; simp [insertByMovDesc]
  | cons f fs ih =>
      intro hs
      rw [List.pairwise_cons] at hs
      unfold insertByMovDesc
      by_cases h : e.mov > f.mov
      · rw [if_pos h]
        rw [List.pairwise_cons]
        constructor
        · intro x hx
          rcases List.mem_cons.mp hx with hx | hx
          · subst hx
            omega
          · have := hs.1 x hx
            omega
        · rw [List.pairwise_cons]
          exact hs
      · rw [if_neg h]
        rw [List.pairwise_cons]
        constructor
        · intro x hx
          rcases insertByMovDesc_mem fs hx with hx | hx
          · subst hx
            omega
          · exact hs.1 x hx
        · exact ih hs.2

theorem foldl_insert_perm :
    ∀ (l acc : List FightEntry),
      (l.foldl (fun acc e => insertByMovDesc e acc) acc).Perm (acc ++ l) := by
  intro l
  induction l with
  | nil => intro acc; simp
  | cons e es ih =>
      intro acc
      have h1 := ih (insertByMovDesc e acc)
      have h2 : (insertByMovDesc e acc ++ es).Perm (acc ++ e :: es) := by
        have h3 : (insertByMovDesc e acc ++ es).Perm ((e :: acc) ++ es) :=
          (insertByMovDesc_perm e acc).append_right es
        have h4 : ((e :: acc) ++ es).Perm (acc ++ e :: es) := by
          simpa using (@List.perm_middle _ e acc es).symm
        exact h3.trans h4
      exact (List.foldl_cons _ _ ▸ h1).trans h2

theorem sortByMovDesc_perm (l : List FightEntry) : (sortByMovDesc l).Perm l := by
  unfold sortByMovDesc
  simpa using foldl_insert_perm l []

theorem foldl_insert_sorted :
    ∀ (l acc : List FightEntry), acc.Pairwise (fun a b => b.mov ≤ a.mov) →
      (l.foldl (fun acc e => insertByMovDesc e acc) acc).Pairwise
        (fun a b => b.mov ≤ a.mov) := by
  intro l
  induction l with
  | nil => intro acc h; exact h
  | cons e es ih =>
      intro acc h
      exact ih (insertByMovDesc e acc) (insertByMovDesc_sorted e acc h)

theorem sortByMovDesc_sorted (l : List FightEntry) :
    (sortByMovDesc l).Pairwise (fun a b => b.mov ≤ a.mov) := by
  unfold sortByMovDesc
  exact foldl_insert_sorted l [] (List.Pairwise.nil)

theorem findIdx?_go_spec {α : Type} (p : α → Bool) :
    ∀ (l : List α) (s k : ℕ), List.findIdx? p l s = some k →
      s ≤ k ∧ ∃ x, l.get? (k - s) = some x ∧ p x = true
        ∧ ∀ j y, j < k - s → l.get? j = some y → p y = false := by
  intro l
  induction l with
  | nil => intro s k h; simp [List.findIdx?] at h
  | cons x xs ih =>
      intro s k h
      rw [List.findIdx?_cons] at h
      by_cases hp : p x = true
      · rw [if_pos hp] at h
        cases h
        refine ⟨le_refl _, x, ?_, hp, ?_⟩
        · simp
        · intro j y hj _
          omega
      · rw [if_neg hp] at h
        obtain ⟨hsk, z, hz, hpz, hfirst⟩ := ih (s + 1) k h
        refine ⟨by omega, z, ?_, hpz, ?_⟩
        · rw [show k - s = (k - (s + 1)) + 1 from by omega]
          simpa using hz
        · intro j y hj hy
          cases j with
          | zero =>
              simp at hy
              subst hy
              simpa using hp
          | succ j =>
              have hj' : j < k - (s + 1) := by omega
              apply hfirst j y hj'
              simpa using hy

theorem fightTargetIdx_first (u : BattleUnit) (elist : List BattleUnit) (ti : ℕ)
    (h : fightTargetIdx u elist = some ti) :
    ∃ t, elist.get? ti = some t
      ∧ (!t.is_destroyed && distLE (dist2 u.position t.position) 1) = true
      ∧ ∀ j y, j < ti → elist.get? j = some y →
          (!y.is_destroyed && distLE (dist2 u.position y.position) 1) = false := by
  have h0 : List.findIdx?
      (fun en => !en.is_destroyed && distLE (dist2 u.position en.position) 1) elist 0
      = some ti := h
  have := findIdx?_go_spec
    (fun en => !en.is_destroyed && distLE (dist2 u.position en.position) 1) elist 0 ti h0
  simpa using this.2

theorem map_fst_filter_enum_nodup {α : Type} (p : ℕ × α → Bool) (l : List α) :
    ((l.enum.filter p).map Prod.fst).Nodup := by
  have hsub : (l.enum.filter p).Sublist l.enum := List.filter_sublist _
  have hmap : ((l.enum.filter p).map Prod.fst).Sublist (l.enum.map Prod.fst) :=
    hsub.map Prod.fst
  have : (l.enum.map Prod.fst).Nodup := by
    rw [List.enum_map_fst]
    exact List.nodup_range _
  exact hmap.nodup this

theorem meleeEntries_refs_nodup (us es : List BattleUnit) :
    ((meleeEntries us es).map (fun e => (e.side, e.idx))).Nodup := by
  unfold meleeEntries
  rw [List.map_append, List.map_map, List.map_map]
  rw [List.nodup_append]
  refine ⟨?_, ?_, ?_⟩
  · have h := map_fst_filter_enum_nodup
      (fun p => p.2.in_melee && !p.2.is_destroyed) us
    have hinj : ∀ i : ℕ, ((false, i) : Bool × ℕ) = ((fun i => (false, i)) i) := fun _ => rfl
    have : ((us.enum.filter (fun p => p.2.in_melee && !p.2.is_destroyed)).map
        (fun p => ((false : Bool), p.1))) =
        (((us.enum.filter (fun p => p.2.in_melee && !p.2.is_destroyed)).map
          Prod.fst).map (fun i => ((false : Bool), i))) := by
      rw [List.map_map]
      rfl
    show (List.map _ _).Nodup
    rw [show ((fun e => (FightEntry.side e, FightEntry.idx e)) ∘
        (fun p : ℕ × BattleUnit =>
          (⟨false, p.1, p.2.player_id, p.2.stats.movement⟩ : FightEntry)))
        = (fun i => ((false : Bool), i)) ∘ (@Prod.fst ℕ BattleUnit) from rfl]
    rw [← List.map_map]
    exact h.map (fun a b hab => by simpa using hab)
  · have h := map_fst_filter_enum_nodup
      (fun p => p.2.in_melee && !p.2.is_destroyed) es
    rw [show ((fun e => (FightEntry.side e, FightEntry.idx e)) ∘
        (fun p : ℕ × BattleUnit =>
          (⟨true, p.1, p.2.player_id, p.2.stats.movement⟩ : FightEntry)))
        = (fun i => ((true : Bool), i)) ∘ (@Prod.fst ℕ BattleUnit) from rfl]
    rw [← List.map_map]
    exact h.map (fun a b hab => by simpa using hab)
  · intro a ha hb
    simp only [List.mem_map, Function.comp] at ha hb
    obtain ⟨x, _, hx⟩ := ha
    obtain ⟨y, _, hy⟩ := hb
    rw [← hx] at hy
    cases hy

/-- C5 (amended): in the command phase each living unit at or below half
its starting model count rolls two summed D6 against its leadership and
becomes BattleShocked exactly when the roll is strictly above it (other
units keep their state and consume no dice); a BattleShocked unit is
skipped by the movement phase (it is left unchanged); but the shooting,
charge and fight phases do not test the BattleShocked state: a shocked
unit meeting a phase's other conditions still shoots, still charges and
still fights. -/
theorem c5_battleshock_amended :
    (∀ (g : ℕ → ℕ) (i : ℕ) (u : BattleUnit), u.is_destroyed = false →
       (2 * u.models_remaining ≤ u.model_count →
          commandStep g i u
            = (if u.stats.leadership < d6 g i + d6 g (i + 1)
               then { u with state := UnitState.BATTLESHOCK } else u, i + 2))
       ∧ (¬ 2 * u.models_remaining ≤ u.model_count → commandStep g i u = (u, i)))
    ∧ (∀ (selectMov : SelectMovement) (objs : List Objective)
         (enemies units : List BattleUnit) (j : ℕ) (u : BattleUnit),
        units.get? j = some u → u.state = UnitState.BATTLESHOCK →
        (movementPhase selectMov objs enemies units).get? j = some u)
    ∧ (∀ (selectShoot : SelectTarget) (terrain : List TerrainFeature) (g : ℕ → ℕ)
         (units enemies : List BattleUnit) (i j : ℕ) (u t : BattleUnit) (ti : ℕ),
        units.get? j = some u → u.state = UnitState.BATTLESHOCK →
        u.is_destroyed = false → u.ranged_weapons ≠ [] → u.has_fallen_back = false →
        selectShoot u enemies = some ti → enemies.get? ti = some t →
        (shootingActivation selectShoot terrain g (units, enemies, i) j).1.get? j
          = some { u with has_shot := true })
    ∧ (∀ (selectCharge : SelectTarget) (landing : Position → Position → Position)
         (g : ℕ → ℕ) (units enemies : List BattleUnit) (i j : ℕ)
         (u t : BattleUnit) (ti : ℕ),
        units.get? j = some u → u.state = UnitState.BATTLESHOCK →
        u.is_destroyed = false → u.has_fallen_back = false → u.melee_weapons ≠ [] →
        selectCharge u enemies = some ti → enemies.get? ti = some t →
        distLE (dist2 u.position t.position) ((d6 g i + d6 g (i + 1) : ℤ) : ℚ) = true →
        (chargeActivation selectCharge landing g (units, enemies, i) j).1.get? j
          = some { u with position := landing u.position t.position, in_melee := true })
    ∧ (∀ (active : ℕ) (g : ℕ → ℕ) (us es : List BattleUnit) (i : ℕ) (e : FightEntry)
         (u t : BattleUnit) (ti : ℕ),
        lookupRef us es e = some u → u.state = UnitState.BATTLESHOCK →
        u.is_destroyed = false → u.has_fought = false →
        fightTargetIdx u (if (e.pid == active) then es else us) = some ti →
        (if (e.pid == active) then es else us).get? ti = some t →
        ∃ v, lookupRef (fightActivation active g (us, es, i) e).1
            (fightActivation active g (us, es, i) e).2.1 e = some v
          ∧ v.has_fought = true) := by
  refine ⟨?_, ?_, ?_, ?_, ?_⟩
  · intro g i u hd
    constructor
    · intro h2
      unfold commandStep
      rw [if_neg (by simp [hd]), if_pos h2]
    · intro h2
      unfold commandStep
      rw [if_neg (by simp [hd]), if_neg h2]
  · intro selectMov objs enemies units j u hu hsh
    exact movementPhase_shocked selectMov objs enemies units j u hu hsh
  · intro selectShoot terrain g units enemies i j u t ti hu _ hd hr hfb hsel ht
    exact shootingActivation_acts selectShoot terrain g units enemies i j u t ti
      hu hd hr hfb hsel ht
  · intro selectCharge landing g units enemies i j u t ti hu _ hd hfb hm hsel ht hroll
    exact (chargeActivation_acts selectCharge landing g units enemies i j u t ti
      hu hd hfb hm hsel ht hroll).1
  · intro active g us es i e u t ti hu _ hd hf hti ht
    exact fightActivation_resolves active g us es i e u t ti hu hd hf hti ht

/-- Witness for C5: a battle-shocked unit is left untouched by the
movement phase. -/
theorem c5_battleshock_amended_witness :
    [cShocked].get? 0 = some cShocked ∧ cShocked.state = UnitState.BATTLESHOCK
    ∧ (movementPhase stratNull.selectMov [] [cVictim] [cShocked]).get? 0
        = some cShocked :=
  ⟨rfl, rfl,
    c5_battleshock_amended.2.1 stratNull.selectMov [] [cVictim] [cShocked] 0 cShocked
      rfl rfl⟩

/-- C6 (amended): the fight phase folds its activation over the melee
roster (all units of both sides that are `in_melee` and alive) sorted in
descending movement order (a stable sort: the processed list is a
permutation of the roster, pairwise non-increasing in movement, and
refers to each unit at most once); each activation re-checks
destroyed/has-fought and otherwise resolves every melee weapon once
against the FIRST living enemy within 1" in enemy-list order — not the
nearest — marking the actor as having fought; with no such enemy, or
when the guard fires, the activation changes nothing. -/
theorem c6_fight_phase_amended :
    (∀ (active : ℕ) (g : ℕ → ℕ) (units enemies : List BattleUnit) (i : ℕ),
        fightPhase active g units enemies i
          = (sortByMovDesc (meleeEntries units enemies)).foldl
              (fightActivation active g) (units, enemies, i))
    ∧ (∀ units enemies : List BattleUnit,
        (sortByMovDesc (meleeEntries units enemies)).Perm (meleeEntries units enemies))
    ∧ (∀ units enemies : List BattleUnit,
        (sortByMovDesc (meleeEntries units enemies)).Pairwise
          (fun a b => b.mov ≤ a.mov))
    ∧ (∀ units enemies : List BattleUnit,
        ((meleeEntries units enemies).map (fun e => (e.side, e.idx))).Nodup)
    ∧ (∀ (u : BattleUnit) (elist : List BattleUnit) (ti : ℕ),
        fightTargetIdx u elist = some ti →
        ∃ t, elist.get? ti = some t
          ∧ (!t.is_destroyed && distLE (dist2 u.position t.position) 1) = true
          ∧ ∀ j y, j < ti → elist.get? j = some y →
              (!y.is_destroyed && distLE (dist2 u.position y.position) 1) = false)
    ∧ (∀ (active : ℕ) (g : ℕ → ℕ) (us es : List BattleUnit) (i : ℕ) (e : FightEntry)
         (u : BattleUnit), lookupRef us es e = some u →
        (u.is_destroyed || u.has_fought) = true →
        fightActivation active g (us, es, i) e = (us, es, i))
    ∧ (∀ (active : ℕ) (g : ℕ → ℕ) (us es : List BattleUnit) (i : ℕ) (e : FightEntry)
         (u : BattleUnit), lookupRef us es e = some u →
        u.is_destroyed = false → u.has_fought = false →
        fightTargetIdx u (if (e.pid == active) then es else us) = none →
        fightActivation active g (us, es, i) e = (us, es, i))
    ∧ (∀ (active : ℕ) (g : ℕ → ℕ) (us es : List BattleUnit) (i : ℕ) (e : FightEntry)
         (u t : BattleUnit) (ti : ℕ), lookupRef us es e = some u →
        u.is_destroyed = false → u.has_fought = false →
        fightTargetIdx u (if (e.pid == active) then es else us) = some ti →
        (if (e.pid == active) then es else us).get? ti = some t →
        ∃ v, lookupRef (fightActivation active g (us, es, i) e).1
            (fightActivation active g (us, es, i) e).2.1 e = some v
          ∧ v.has_fought = true) := by
  refine ⟨fun _ _ _ _ _ => rfl, fun us es => sortByMovDesc_perm _,
    fun us es => sortByMovDesc_sorted _, fun us es => meleeEntries_refs_nodup us es,
    fun u elist ti h => fightTargetIdx_first u elist ti h,
    fun active g us es i e u hu h => fightActivation_skip_guard active g us es i e u hu h,
    fun active g us es i e u hu hd hf hti =>
      fightActivation_skip_no_target active g us es i e u hu hd hf hti,
    fun active g us es i e u t ti hu hd hf hti ht =>
      fightActivation_resolves active g us es i e u t ti hu hd hf hti ht⟩

/-- Witness for C6: a unit that has already fought is skipped by the
activation. -/
theorem c6_fight_phase_amended_witness :
    lookupRef [cTired] [] entry0 = some cTired
    ∧ (cTired.is_destroyed || cTired.has_fought) = true
    ∧ fightActivation 0 gSix ([cTired], [], 0) entry0 = ([cTired], [], 0) :=
  ⟨rfl, by decide,
    c6_fight_phase_amended.2.2.2.2.2.1 0 gSix [cTired] [] 0 entry0 cTired rfl
      (by decide)⟩

/-- C5 counterexample: a battle-shocked unit locked in melee still acts
in the fight phase — it fights (is marked `has_fought`) and deals damage
to the enemy half an inch away, refuting "a BattleShocked unit performs
no action in the movement, shooting, charge, or fight phases". -/
theorem c5_battleshock_counterexample :
    cShocked.state = UnitState.BATTLESHOCK
    ∧ (fightPhase 0 gSix [cShocked] [cVictim] 0).1.get? 0
        = some { cShocked with has_fought := true }
    ∧ (fightPhase 0 gSix [cShocked] [cVictim] 0).2.1.get? 0
        = some { cVictim with current_wounds := 1 } := by
  have hpred : (!cVictim.is_destroyed
      && distLE (dist2 cShocked.position cVictim.position) 1) = true := by
    have h1 : cVictim.is_destroyed = false := by decide
    have h2 : distLE (dist2 cShocked.position cVictim.position) 1 = true := by
      norm_num [distLE, dist2, cShocked, cVictim]
    rw [h1, h2]
    rfl
  have htgt : fightTargetIdx cShocked [cVictim] = some 0 := by
    unfold fightTargetIdx
    rw [List.findIdx?_cons, if_pos hpred]
  have hmelee : meleeLoop gSix cShocked cShocked.melee_weapons cVictim 0
      = (1, 0, { cVictim with current_wounds := 1 }, 2) := rfl
  have hact : fightActivation 0 gSix ([cShocked], [cVictim], 0) entry0
      = ([{ cShocked with has_fought := true }],
         [{ cVictim with current_wounds := 1 }], 2) := by
    unfold fightActivation
    dsimp only
    rw [show lookupRef [cShocked] [cVictim] entry0 = some cShocked from rfl]
    dsimp only
    rw [if_neg (show ¬ (cShocked.is_destroyed || cShocked.has_fought) = true from
      by decide)]
    simp only [entry0, beq_self_eq_true, eq_self_iff_true, if_true]
    rw [htgt]
    dsimp only
    rw [show ([cVictim] : List BattleUnit).get? 0 = some cVictim from rfl]
    dsimp only
    rw [hmelee]
    rfl
  have hentries : sortByMovDesc (meleeEntries [cShocked] [cVictim]) = [entry0] := by
    decide
  have hphase5 : fightPhase 0 gSix [cShocked] [cVictim] 0
      = ([{ cShocked with has_fought := true }],
         [{ cVictim with current_wounds := 1 }], 2) := by
    unfold fightPhase
    rw [hentries, List.foldl_cons, List.foldl_nil, hact]
  exact ⟨rfl, by rw [hphase5]; rfl, by rw [hphase5]; rfl⟩

/-- C6 counterexample: with two living enemies inside 1", the fight
phase attacks the FIRST in enemy-list order (1" away), not the nearest
(half an inch away): the first enemy loses a wound while the nearest is
untouched, refuting "resolves melee against the nearest living enemy
within 1 inch". -/
theorem c6_fight_target_counterexample :
    fightTargetIdx cFighter [cFarEnemy, cNearEnemy] = some 0
    ∧ nearestEnemyIdxWithin1 cFighter [cFarEnemy, cNearEnemy] = some 1
    ∧ dist2 cFighter.position cNearEnemy.position
        < dist2 cFighter.position cFarEnemy.position
    ∧ (fightPhase 0 gSix [cFighter] [cFarEnemy, cNearEnemy] 0).2.1.get? 0
        = some { cFarEnemy with current_wounds := 1 }
    ∧ (fightPhase 0 gSix [cFighter] [cFarEnemy, cNearEnemy] 0).2.1.get? 1
        = some cNearEnemy := by
  have hfar : (!cFarEnemy.is_destroyed
      && distLE (dist2 cFighter.position cFarEnemy.position) 1) = true := by
    have h1 : cFarEnemy.is_destroyed = false := by decide
    have h2 : distLE (dist2 cFighter.position cFarEnemy.position) 1 = true := by
      norm_num [distLE, dist2, cFighter, cShocked, cFarEnemy, cVictim]
    rw [h1, h2]
    rfl
  have htgt : fightTargetIdx cFighter [cFarEnemy, cNearEnemy] = some 0 := by
    unfold fightTargetIdx
    rw [List.findIdx?_cons, if_pos hfar]
  have hnearpred : (!cNearEnemy.is_destroyed
      && distLE (dist2 cFighter.position cNearEnemy.position) 1) = true := by
    have h1 : cNearEnemy.is_destroyed = false := by decide
    have h2 : distLE (dist2 cFighter.position cNearEnemy.position) 1 = true := by
      norm_num [distLE, dist2, cFighter, cShocked, cNearEnemy, cVictim]
    rw [h1, h2]
    rfl
  have hdist : dist2 cFighter.position cNearEnemy.position
      < dist2 cFighter.position cFarEnemy.position := by
    norm_num [dist2, cFighter, cShocked, cFarEnemy, cNearEnemy, cVictim]
  have hnear : nearestEnemyIdxWithin1 cFighter [cFarEnemy, cNearEnemy] = some 1 := by
    unfold nearestEnemyIdxWithin1
    rw [show ([cFarEnemy, cNearEnemy] : List BattleUnit).enum
      = [(0, cFarEnemy), (1, cNearEnemy)] from rfl]
    rw [List.filter_cons, List.filter_cons, List.filter_nil]
    dsimp only
    rw [if_pos hfar, if_pos hnearpred]
    dsimp only
    rw [List.foldl_cons, List.foldl_nil]
    dsimp only
    rw [if_pos hdist]
  have hmelee : meleeLoop gSix cFighter cFighter.melee_weapons cFarEnemy 0
      = (1, 0, { cFarEnemy with current_wounds := 1 }, 2) := rfl
  have hact : fightActivation 0 gSix ([cFighter], [cFarEnemy, cNearEnemy], 0) entry0
      = ([{ cFighter with has_fought := true }],
         [{ cFarEnemy with current_wounds := 1 }, cNearEnemy], 2) := by
    unfold fightActivation
    dsimp only
    rw [show lookupRef [cFighter] [cFarEnemy, cNearEnemy] entry0 = some cFighter
      from rfl]
    dsimp only
    rw [if_neg (show ¬ (cFighter.is_destroyed || cFighter.has_fought) = true from
      by decide)]
    simp only [entry0, beq_self_eq_true, eq_self_iff_true, if_true]
    rw [htgt]
    dsimp only
    rw [show ([cFarEnemy, cNearEnemy] : List BattleUnit).get? 0 = some cFarEnemy
      from rfl]
    dsimp only
    rw [hmelee]
    rfl
  have hentries : sortByMovDesc (meleeEntries [cFighter] [cFarEnemy, cNearEnemy])
      = [entry0] := by decide
  have hphase : fightPhase 0 gSix [cFighter] [cFarEnemy, cNearEnemy] 0
      = ([{ cFighter with has_fought := true }],
         [{ cFarEnemy with current_wounds := 1 }, cNearEnemy], 2) := by
    unfold fightPhase
    rw [hentries, List.foldl_cons, List.foldl_nil, hact]
  exact ⟨htgt, hnear, hdist, by rw [hphase]; rfl, by rw [hphase]; rfl⟩

end WH40K
